import Mathlib

/-!
Shallow embedding of the Document Center backend (src/Code.js), a Google
Apps Script application storing its tables in spreadsheet sheets.  Each
sheet is modelled as a Lean list of typed rows (the header row is implicit;
where the code scans `data` including the header row, the embedding accounts
for the header cells, which hold the literal column names).  Spreadsheet
cell values are modelled as String / Nat (epoch milliseconds for dates) /
Int (for counters) / Bool.  `Session.getActiveUser` is modelled by passing
the current user as an argument; `new Date()` / `Date.now()` by passing the
current time `now : Nat` (ms); `generateId` (time + random suffix) by
passing the generated id as an argument, since it is nondeterministic.
All sheets are assumed to exist (an initialized database): the
`Database not initialized` error paths of the code are outside the model.
-/

namespace DocCenter

/-- Character-list test: does `l` start with `sub`?  Used to model the JS
`String.prototype.includes` substring search. -/
def startsSeg : List Char → List Char → Bool
  | [], _ => true
  | _ :: _, [] => false
  | a :: as, b :: bs => a == b && startsSeg as bs

/-- Character-list test: does `sub` occur contiguously inside `l`?  Models
JS `str.includes(sub)` (for the non-empty patterns used by the code). -/
def containsSeg (sub : List Char) : List Char → Bool
  | [] => startsSeg sub []
  | c :: cs => startsSeg sub (c :: cs) || containsSeg sub cs

/-- Model of JS `url.includes(pat)`. -/
def jsIncludes (s pat : String) : Bool := containsSeg pat.data s.data

/-- Model of JS `String.prototype.trim` on a character list: strip leading
and trailing whitespace. -/
def trimChars (l : List Char) : List Char :=
  ((l.dropWhile Char.isWhitespace).reverse.dropWhile Char.isWhitespace).reverse

/-- Split a character list at commas; models JS `s.split(',')` (a
single-character separator; `''.split(',')` is `['']`, matched by the
empty-input case producing `[[]]`). -/
def splitCommaChars : List Char → List (List Char)
  | [] => [[]]
  | c :: cs =>
    if c == ',' then [] :: splitCommaChars cs
    else match splitCommaChars cs with
      | [] => [[c]]
      | g :: gs => (c :: g) :: gs

/-- Model of `tagsString.split(',').map(t => t.trim())` (src/Code.js line 741). -/
def splitTags (s : String) : List String :=
  (splitCommaChars s.data).map (fun cs => String.mk (trimChars cs))

/-- Model of the JS truthiness test `!x` for an optional string field:
`undefined` and the empty string are falsy. -/
def truthyS (o : Option String) : Bool := !(o.getD "" == "")

/-- Replace the element at index `i` (0-based) using `f`; models a
`sheet.getRange(row, col).setValue(...)` write into an existing row. -/
def modifyAt (i : Nat) (f : α → α) : List α → List α
  | [] => []
  | x :: xs =>
    match i with
    | 0 => f x :: xs
    | i + 1 => x :: modifyAt i f xs

/-- Stable insertion used by `jsSort`. -/
def jsInsert (le : α → α → Bool) (x : α) : List α → List α
  | [] => [x]
  | y :: ys => if le x y then x :: y :: ys else y :: jsInsert le x ys

/-- Model of JS `Array.prototype.sort(cmp)`: a comparison sort ordering the
list by the comparator (modelled as a stable insertion sort; JS engines use
a stable sort, and no property proved here depends on the tie order). -/
def jsSort (le : α → α → Bool) : List α → List α
  | [] => []
  | x :: xs => jsInsert le x (jsSort le xs)

-- =====================================
-- Data model: one structure per sheet row
-- =====================================

/-- Row of the `Documents` sheet, columns
`[DocID, DocumentName, GoogleDriveURL, Description, Category, FileType,
  OwnerEmail, Tags, DateAdded, LastModified, Status]`. -/
structure Document where
  DocID : String
  DocumentName : String
  GoogleDriveURL : String
  Description : String
  Category : String
  FileType : String
  OwnerEmail : String
  Tags : String
  DateAdded : Nat
  LastModified : Nat
  Status : String
deriving Repr, DecidableEq, Inhabited

/-- Row of the `Categories` sheet, columns
`[CategoryID, CategoryName, CreatedBy, DateCreated, Active, DocumentCount]`. -/
structure CategoryRow where
  CategoryID : String
  CategoryName : String
  CreatedBy : String
  DateCreated : Nat
  Active : Bool
  DocumentCount : Int
deriving Repr, DecidableEq, Inhabited

/-- Row of the `Tags` sheet, columns
`[TagID, TagName, CreatedBy, DateCreated, UsageCount]`. -/
structure TagRow where
  TagID : String
  TagName : String
  CreatedBy : String
  DateCreated : Nat
  UsageCount : Int
deriving Repr, DecidableEq, Inhabited

/-- Row of the `UserFavorites` sheet, columns
`[FavoriteID, UserEmail, DocID, DateAdded]`. -/
structure FavoriteRow where
  FavoriteID : String
  UserEmail : String
  DocID : String
  DateAdded : Nat
deriving Repr, DecidableEq, Inhabited

/-- Row of the `OnlineUsers` sheet, columns
`[SessionID, UserEmail, UserName, LoginTime, LastActivity, Avatar, Status]`. -/
structure SessionRow where
  SessionID : String
  UserEmail : String
  UserName : String
  LoginTime : Nat
  LastActivity : Nat
  Avatar : String
  Status : String
deriving Repr, DecidableEq, Inhabited

/-- Row of the `ActivityLog` sheet, columns
`[ActivityID, UserEmail, UserName, Action, DocID, Details, Timestamp]`. -/
structure ActivityRow where
  ActivityID : String
  UserEmail : String
  UserName : String
  Action : String
  DocID : String
  Details : String
  Timestamp : Nat
deriving Repr, DecidableEq, Inhabited

/-- Row of the `Analytics` sheet, columns
`[ViewID, DocID, UserEmail, Timestamp, Source, DocumentName]`. -/
structure AnalyticsRow where
  ViewID : String
  DocID : String
  UserEmail : String
  Timestamp : Nat
  Source : String
  DocumentName : String
deriving Repr, DecidableEq, Inhabited

/-- The whole spreadsheet: the data rows of every sheet (headers implicit). -/
structure Store where
  documents : List Document
  categories : List CategoryRow
  tags : List TagRow
  favorites : List FavoriteRow
  sessions : List SessionRow
  activityLog : List ActivityRow
  analytics : List AnalyticsRow
deriving Repr, DecidableEq, Inhabited

/-- The resolved identity of the current request, as produced by
`getCurrentUser()` (src/Code.js lines 86-103). -/
structure CurrentUser where
  isSignedIn : Bool
  email : String
  name : String
  avatar : String
deriving Repr, DecidableEq, Inhabited

/-- Structured form of the JSON result objects every mutating endpoint
returns (`{ success, error?, ... }`); fields absent from a given response
are `none`. -/
structure JsonResult where
  success : Bool
  error : Option String := none
  docId : Option String := none
  message : Option String := none
  favorited : Option Bool := none
deriving Repr, DecidableEq, Inhabited

/-- Session timeout in milliseconds: `CONFIG.sessionTimeout = 30` minutes
(src/Code.js line 10), used as `CONFIG.sessionTimeout * 60 * 1000`. -/
def sessionTimeoutMs : Int := 30 * 60 * 1000

/-- Model of `detectFileType(url)` (src/Code.js lines 616-631): a chain of
substring tests on the URL, first match winning; the empty string stands
for a missing/empty URL (`!url`). -/
def detectFileType (url : String) : String :=
  if url == "" then "Other"
  else if jsIncludes url "docs.google.com/document" then "Google Doc"
  else if jsIncludes url "docs.google.com/spreadsheets" then "Google Sheet"
  else if jsIncludes url "docs.google.com/presentation" then "Google Slides"
  else if jsIncludes url "docs.google.com/forms" then "Google Form"
  else if jsIncludes url "drive.google.com/file" && jsIncludes url ".pdf" then "PDF"
  else if jsIncludes url "drive.google.com/file" &&
          (jsIncludes url ".jpg" || jsIncludes url ".png" || jsIncludes url ".gif") then "Image"
  else if jsIncludes url "sites.google.com" then "Google Site"
  else if jsIncludes url "lookerstudio.google.com" then "Looker Studio"
  else if jsIncludes url "tableau.com" then "Tableau"
  else "Website"

/-- Spec-side classifier for file types, following the spec words: an
ordered list of (pattern, label) pairs, first match wins, no URL gives
`Other`, no match gives `Website`.  The PDF and Image patterns are the
compound substring patterns of the code (a Drive file link carrying the
extension). -/
def fileTypePatterns : List ((String → Bool) × String) :=
  [ (fun u => jsIncludes u "docs.google.com/document", "Google Doc"),
    (fun u => jsIncludes u "docs.google.com/spreadsheets", "Google Sheet"),
    (fun u => jsIncludes u "docs.google.com/presentation", "Google Slides"),
    (fun u => jsIncludes u "docs.google.com/forms", "Google Form"),
    (fun u => jsIncludes u "drive.google.com/file" && jsIncludes u ".pdf", "PDF"),
    (fun u => jsIncludes u "drive.google.com/file" &&
      (jsIncludes u ".jpg" || jsIncludes u ".png" || jsIncludes u ".gif"), "Image"),
    (fun u => jsIncludes u "sites.google.com", "Google Site"),
    (fun u => jsIncludes u "lookerstudio.google.com", "Looker Studio"),
    (fun u => jsIncludes u "tableau.com", "Tableau") ]

/-- First match of an ordered pattern list against a URL. -/
def firstMatch (url : String) : List ((String → Bool) × String) → Option String
  | [] => none
  | pr :: rest => if pr.1 url then some pr.2 else firstMatch url rest

/-- Spec-side classifier: first-match classification over
`fileTypePatterns`, per the spec words (no URL gives `Other`, no matching
pattern gives `Website`). -/
def detectFileTypeSpec (url : String) : String :=
  if url == "" then "Other" else (firstMatch url fileTypePatterns).getD "Website"

/-- The eleven labels the spec allows. -/
def fileTypeLabels : List String :=
  ["Google Doc", "Google Sheet", "Google Slides", "Google Form", "PDF",
   "Image", "Google Site", "Looker Studio", "Tableau", "Website", "Other"]

-- =====================================
-- Session / presence tracking
-- =====================================

/-- Model of `cleanupExpiredSessions(sheet)` (src/Code.js lines 754-770):
delete every data row whose `LastActivity` is before
`Date.now() - CONFIG.sessionTimeout * 60 * 1000` (rows are collected bottom
up and deleted; the net effect on the remaining rows is a filter keeping
the non-expired ones, header untouched since the scan starts at `i = 1`). -/
def cleanupExpiredSessions (now : Nat) (rows : List SessionRow) : List SessionRow :=
  rows.filter (fun r => !((r.LastActivity : Int) < (now : Int) - sessionTimeoutMs))

/-- Model of `removeUserSession(sheet, email)` (src/Code.js lines 772-783):
`findIndex` over the data including the header (whose `UserEmail` cell is
the literal `'UserEmail'`), delete only when the hit is a data row
(`rowIndex > 0`). -/
def removeUserSession (email : String) : List SessionRow → List SessionRow
  | [] => []
  | r :: rest =>
    if email == "UserEmail" then r :: rest
    else if r.UserEmail == email then rest
    else r :: removeUserSession email rest

/-- The three values of the `action` argument of `trackUserSession`. -/
inductive SessAction where
  | login
  | heartbeat
  | logout
deriving Repr, DecidableEq

/-- Model of `trackUserSession(user, action)` (src/Code.js lines 108-153).
After the expiry sweep: logout deletes the user's row; login overwrites the
user's row (or appends one) with fresh `loginTime = lastActivity = now`;
heartbeat refreshes `LastActivity` and `Status` of an existing row, or
appends a fresh row when none exists.  The session-row scan starts at
`i = 1`, so the header is never matched. -/
def trackUserSession (u : CurrentUser) (a : SessAction) (now : Nat) (freshId : String)
    (st : Store) : Store × JsonResult :=
  if !u.isSignedIn then
    (st, { success := false, error := some "User not authenticated" })
  else
    let rows := cleanupExpiredSessions now st.sessions
    match a with
    | .logout => ({ st with sessions := removeUserSession u.email rows }, { success := true })
    | .login =>
      let newRow : SessionRow :=
        ⟨freshId, u.email, u.name, now, now, u.avatar, "Online"⟩
      match rows.findIdx? (fun r => r.UserEmail == u.email) with
      | some i => ({ st with sessions := modifyAt i (fun _ => newRow) rows }, { success := true })
      | none => ({ st with sessions := rows ++ [newRow] }, { success := true })
    | .heartbeat =>
      match rows.findIdx? (fun r => r.UserEmail == u.email) with
      | some i =>
        ({ st with sessions :=
            modifyAt i (fun r => { r with LastActivity := now, Status := "Online" }) rows },
          { success := true })
      | none =>
        let newRow : SessionRow :=
          ⟨freshId, u.email, u.name, now, now, u.avatar, "Online"⟩
        ({ st with sessions := rows ++ [newRow] }, { success := true })

/-- The user objects `getOnlineUsers` places into its `users` array
(src/Code.js lines 170-173). -/
structure SessionView where
  email : String
  name : String
  loginTime : Nat
  lastActivity : Nat
  avatar : String
  status : String
deriving Repr, DecidableEq, Inhabited

/-- Projection of a session row to the `users` entry of `getOnlineUsers`. -/
def toView (r : SessionRow) : SessionView :=
  ⟨r.UserEmail, r.UserName, r.LoginTime, r.LastActivity, r.Avatar, r.Status⟩

/-- The store mutation and the `users` list computed by `getOnlineUsers()`
(src/Code.js lines 158-182): empty sheet short-circuits to `[]`; otherwise
the expiry sweep runs, rows with `Status === 'Online'` are collected and
sorted by `lastActivity` descending. -/
def getOnlineUsersCore (now : Nat) (st : Store) : Store × List SessionView :=
  if st.sessions.length == 0 then (st, [])
  else
    let rows := cleanupExpiredSessions now st.sessions
    let users := (rows.filter (fun r => r.Status == "Online")).map toView
    ({ st with sessions := rows },
      jsSort (fun a b => b.lastActivity ≤ a.lastActivity) users)

/-- Minimal rendering of one `users` entry used by `usersJson`. -/
def viewJson (v : SessionView) : String :=
  "\x7b\"email\":\"" ++ v.email ++ "\",\"lastActivity\":" ++ toString v.lastActivity ++ "\x7d"

/-- Rendering of the object `{ success: true, users: [...] }` to a JSON
text, modelling the `JSON.stringify` call of src/Code.js line 177 (the
exact field rendering is irrelevant to every property proved here: what
matters is that the function returns a string). -/
def usersJson (users : List SessionView) : String :=
  "\x7b\"success\":true,\"users\":[" ++ String.intercalate "," (users.map viewJson) ++ "]\x7d"

/-- Model of `getOnlineUsers()` as called by clients: it returns
`JSON.stringify({ success: true, users })`, a string (src/Code.js
line 177), after mutating the sessions sheet via the sweep. -/
def getOnlineUsers (now : Nat) (st : Store) : Store × String :=
  let p := getOnlineUsersCore now st
  (p.1, usersJson p.2)

/-- Model of the JS property access `str.users` on a string value: a
primitive string has no `users` property, so the access yields `undefined`
for every string.  (This is how `getInitialData` consumes the return value
of `getOnlineUsers`, src/Code.js line 67.) -/
def stringPropUsers (_s : String) : Option (List SessionView) := none

-- =====================================
-- Counter helpers
-- =====================================

/-- Model of `updateCategoryCount(categoryName, delta)` (src/Code.js lines
718-732): `findIndex` over the data including the header (whose
`CategoryName` cell is the literal `'CategoryName'`, hence the first
guard), and when the hit is a data row (`rowIndex > 0`) overwrite its
count cell with `Math.max(0, currentCount + delta)`; silently a no-op when
no row matches. -/
def updateCategoryCount (name : String) (delta : Int) : List CategoryRow → List CategoryRow
  | [] => []
  | c :: rest =>
    if name == "CategoryName" then c :: rest
    else if c.CategoryName == name then
      { c with DocumentCount := max 0 (c.DocumentCount + delta) } :: rest
    else c :: updateCategoryCount name delta rest

/-- One iteration of the `tags.forEach` loop of `updateTagCounts`
(src/Code.js lines 742-748): `findIndex` and the count read use the
snapshot `data0` captured before the loop (the cell write is immediate,
but `data` is not re-read), while the write lands in the current sheet
`cur`; the header's `TagName` cell is the literal `'TagName'`, and a
header hit (`rowIndex = 0`) is skipped by the `rowIndex > 0` guard. -/
def bumpTagStale (data0 : List TagRow) (delta : Int) (cur : List TagRow) (name : String) :
    List TagRow :=
  if name == "TagName" then cur
  else
    match data0.findIdx? (fun r => r.TagName == name) with
    | none => cur
    | some i =>
      match data0[i]? with
      | none => cur
      | some r0 => modifyAt i (fun r => { r with UsageCount := max 0 (r0.UsageCount + delta) }) cur

/-- Model of `updateTagCounts(tagsString, delta)` (src/Code.js lines
734-752): no-op on a falsy tags string (`undefined` or `''`); otherwise
split on commas, trim, and bump each named tag, reading counts from the
snapshot taken before the loop. -/
def updateTagCounts (tagsString : Option String) (delta : Int) (tags : List TagRow) :
    List TagRow :=
  match tagsString with
  | none => tags
  | some s =>
    if s == "" then tags
    else (splitTags s).foldl (bumpTagStale tags delta) tags

-- =====================================
-- Document CRUD
-- =====================================

/-- Model of `isDuplicateURL(url)` (src/Code.js lines 677-688): the url
column of the data rows (the read starts at row 2, skipping the header) is
scanned with `some`; an empty sheet short-circuits to `false`, which is
also what `some` yields on an empty list. -/
def isDuplicateURL (url : String) (docs : List Document) : Bool :=
  docs.any (fun d => d.GoogleDriveURL == url)

/-- The argument object of `addDocument` (src/Code.js line 211): fields the
caller may omit are optional, and the code tests them with JS truthiness. -/
structure AddInput where
  DocumentName : Option String := none
  GoogleDriveURL : Option String := none
  Description : Option String := none
  Category : Option String := none
  Tags : Option String := none
deriving Repr, DecidableEq

/-- Append an activity-log entry; models `logActivity(user, action, docId,
details)` (src/Code.js lines 706-716), which appends
`[generateId('ACT'), email, name, action, docId, details, now]`. -/
def logRow (u : CurrentUser) (now : Nat) (actId action docId details : String) : ActivityRow :=
  ⟨actId, u.email, u.name, action, docId, details, now⟩

/-- Model of `addDocument(documentData)` (src/Code.js lines 211-245):
authentication check, required-field check (JS truthiness), duplicate-URL
check, then append the new row (dateAdded = lastModified = now, fileType
inferred from the URL, status Active), log the creation, increment the
category counter, and increment the tag counters when a tags string was
supplied. -/
def addDocument (u : CurrentUser) (now : Nat) (docIdF actIdF : String) (input : AddInput)
    (st : Store) : Store × JsonResult :=
  if !u.isSignedIn then
    (st, { success := false, error := some "User not authenticated" })
  else if !truthyS input.DocumentName || !truthyS input.GoogleDriveURL ||
      !truthyS input.Category then
    (st, { success := false, error := some "Missing required fields" })
  else if isDuplicateURL (input.GoogleDriveURL.getD "") st.documents then
    (st, { success := false, error := some "A document with this URL already exists" })
  else
    let url := input.GoogleDriveURL.getD ""
    let name := input.DocumentName.getD ""
    let cat := input.Category.getD ""
    let newDoc : Document :=
      ⟨docIdF, name, url, input.Description.getD "", cat, detectFileType url,
        u.email, input.Tags.getD "", now, now, "Active"⟩
    let cats := updateCategoryCount cat 1 st.categories
    let tags := if truthyS input.Tags then updateTagCounts input.Tags 1 st.tags else st.tags
    ({ st with
        documents := st.documents ++ [newDoc],
        activityLog := st.activityLog ++
          [logRow u now actIdF "Created Document" docIdF ("Created \"" ++ name ++ "\"")],
        categories := cats,
        tags := tags },
      { success := true, docId := some docIdF, message := some "Document added successfully" })

/-- The `updates` object of `updateDocument`: a key present in the object
is `some value`, an absent key is `none`.  Only the six caller-updated
columns are modelled; a key matching no header is skipped by the code
(`colIndex > -1`) and keys never passed by any caller are omitted. -/
structure DocUpdates where
  DocumentName : Option String := none
  GoogleDriveURL : Option String := none
  Description : Option String := none
  Category : Option String := none
  Tags : Option String := none
  Status : Option String := none
deriving Repr, DecidableEq

/-- Does the update write this cell (key present, value defined and
different from the current cell)?  Models the test of src/Code.js line 274. -/
def changedS (old : String) : Option String → Bool
  | none => false
  | some v => !(old == v)

/-- The cell value after the update loop: the new value when the key is
present (writing an equal value leaves the cell unchanged). -/
def updVal (old : String) : Option String → String
  | none => old
  | some v => v

/-- The document row after the update loop of src/Code.js lines 272-278
plus the unconditional `LastModified` stamp of line 280. -/
def applyUpd (upd : DocUpdates) (now : Nat) (d : Document) : Document :=
  { d with
    DocumentName := updVal d.DocumentName upd.DocumentName
    GoogleDriveURL := updVal d.GoogleDriveURL upd.GoogleDriveURL
    Description := updVal d.Description upd.Description
    Category := updVal d.Category upd.Category
    Tags := updVal d.Tags upd.Tags
    Status := updVal d.Status upd.Status
    LastModified := now }

/-- The `changes` descriptions collected by the update loop
(src/Code.js line 276).  `Object.keys` iterates the caller's key-insertion
order; the model fixes column order (every property proved below depends
only on the entries, and all callers in the code pass one key). -/
def changeList (upd : DocUpdates) (d : Document) : List String :=
  (if changedS d.DocumentName upd.DocumentName then ["DocumentName updated"] else []) ++
  (if changedS d.GoogleDriveURL upd.GoogleDriveURL then ["GoogleDriveURL updated"] else []) ++
  (if changedS d.Description upd.Description then ["Description updated"] else []) ++
  (if changedS d.Category upd.Category then ["Category updated"] else []) ++
  (if changedS d.Tags upd.Tags then ["Tags updated"] else []) ++
  (if changedS d.Status upd.Status then ["Status updated"] else [])

/-- The category-counter guard of src/Code.js line 282:
`updates.Category && updates.Category !== oldCategory` (an absent or
empty-string new category is falsy and skips the counter adjustment). -/
def catGuard (upd : DocUpdates) (oldCategory : String) : Bool :=
  match upd.Category with
  | none => false
  | some c => !(c == "") && !(c == oldCategory)

/-- The tag-counter guard of src/Code.js line 286:
`updates.Tags !== oldTags`.  When the update has no `Tags` key the left
side is `undefined`, which is strictly unequal to every string, so the
guard is true. -/
def tagGuard (upd : DocUpdates) (oldTags : String) : Bool :=
  match upd.Tags with
  | none => true
  | some t => !(t == oldTags)

/-- The counter side effects of `updateDocument` (src/Code.js lines
282-289), applied to the category and tag sheets. -/
def updSideEffects (upd : DocUpdates) (oldCategory oldTags : String) (st : Store) : Store :=
  let cats :=
    if catGuard upd oldCategory then
      updateCategoryCount (upd.Category.getD "") 1
        (updateCategoryCount oldCategory (-1) st.categories)
    else st.categories
  let tags :=
    if tagGuard upd oldTags then
      updateTagCounts upd.Tags 1 (updateTagCounts (some oldTags) (-1) st.tags)
    else st.tags
  { st with categories := cats, tags := tags }

/-- Overwrite the first document row whose `DocID` matches; models the
`findIndex` plus per-cell `setValue` writes of `updateDocument`. -/
def writeFirstDoc (docId : String) (d' : Document) : List Document → List Document
  | [] => []
  | d :: rest => if d.DocID == docId then d' :: rest else d :: writeFirstDoc docId d' rest

/-- The `changes` list when `findIndex` hits the header row (possible only
for `docId = 'DocID'`): the old cell values are the literal column names. -/
def headerChanges (upd : DocUpdates) : List String :=
  (if changedS "DocumentName" upd.DocumentName then ["DocumentName updated"] else []) ++
  (if changedS "GoogleDriveURL" upd.GoogleDriveURL then ["GoogleDriveURL updated"] else []) ++
  (if changedS "Description" upd.Description then ["Description updated"] else []) ++
  (if changedS "Category" upd.Category then ["Category updated"] else []) ++
  (if changedS "Tags" upd.Tags then ["Tags updated"] else []) ++
  (if changedS "Status" upd.Status then ["Status updated"] else [])

/-- Model of `updateDocument(docId, updates)` (src/Code.js lines 247-298).
`data.findIndex(row => row[0] === docId)` scans the header row too, whose
first cell is the literal `'DocID'`; on that (degenerate) hit the code
overwrites header cells — which the model, keeping only data rows, leaves
unchanged — and still runs the counter and logging side effects with the
header literals as old values.  On a data-row hit the matched row is
rewritten, `LastModified` stamped, counters adjusted per the two guards,
and one activity entry logged when at least one field changed. -/
def updateDocument (u : CurrentUser) (now : Nat) (actIdF : String) (docId : String)
    (upd : DocUpdates) (st : Store) : Store × JsonResult :=
  if !u.isSignedIn then
    (st, { success := false, error := some "User not authenticated" })
  else if docId == "DocID" then
    let changes := headerChanges upd
    let st' := updSideEffects upd "Category" "Tags" st
    let st'' :=
      if changes.length == 0 then st'
      else { st' with activityLog := st'.activityLog ++
        [logRow u now actIdF "Updated Document" docId (String.intercalate ", " changes)] }
    (st'', { success := true, message := some "Document updated successfully" })
  else
    match st.documents.find? (fun d => d.DocID == docId) with
    | none => (st, { success := false, error := some "Document not found" })
    | some d0 =>
      let changes := changeList upd d0
      let st' := updSideEffects upd d0.Category d0.Tags
        { st with documents := writeFirstDoc docId (applyUpd upd now d0) st.documents }
      let st'' :=
        if changes.length == 0 then st'
        else { st' with activityLog := st'.activityLog ++
          [logRow u now actIdF "Updated Document" docId (String.intercalate ", " changes)] }
      (st'', { success := true, message := some "Document updated successfully" })

/-- Model of `archiveDocument(docId)` (src/Code.js lines 300-310): update
`Status` to `'Archived'`, then log a dedicated entry when the update
succeeded; the update result is passed through. -/
def archiveDocument (u : CurrentUser) (now : Nat) (actId1 actId2 : String) (docId : String)
    (st : Store) : Store × JsonResult :=
  let p := updateDocument u now actId1 docId { Status := some "Archived" } st
  if p.2.success then
    ({ p.1 with activityLog := p.1.activityLog ++
        [logRow u now actId2 "Archived Document" docId "Document archived"] }, p.2)
  else p

/-- Model of `restoreDocument(docId)` (src/Code.js lines 312-322),
symmetric to `archiveDocument` with `Status = 'Active'`. -/
def restoreDocument (u : CurrentUser) (now : Nat) (actId1 actId2 : String) (docId : String)
    (st : Store) : Store × JsonResult :=
  let p := updateDocument u now actId1 docId { Status := some "Active" } st
  if p.2.success then
    ({ p.1 with activityLog := p.1.activityLog ++
        [logRow u now actId2 "Restored Document" docId "Document restored"] }, p.2)
  else p

/-- Remove the first document row whose `DocID` matches; models the
`findIndex` plus `deleteRow` of `deleteDocument`. -/
def eraseFirstDoc (docId : String) : List Document → List Document
  | [] => []
  | d :: rest => if d.DocID == docId then rest else d :: eraseFirstDoc docId rest

/-- Model of `removeFromAllFavorites(docId)` (src/Code.js lines 636-656):
every data row referencing the document is deleted (rows are collected
bottom-up, so the remaining rows are exactly the non-matching ones in
order; the scan starts at `i = 1`, never touching the header). -/
def removeFromAllFavorites (docId : String) (favs : List FavoriteRow) : List FavoriteRow :=
  favs.filter (fun f => !(f.DocID == docId))

/-- Model of `deleteDocument(docId)` (src/Code.js lines 324-360): find the
row (the `findIndex` scans the header too; on the degenerate
`docId = 'DocID'` hit the code deletes the header row itself — the data
rows, which are all the model keeps, are unchanged — and runs the side
effects with the header literals), delete it, decrement the category
counter, decrement tag counters when the row had tags, cascade-remove the
favorites, and log the deletion. -/
def deleteDocument (u : CurrentUser) (now : Nat) (actIdF : String) (docId : String)
    (st : Store) : Store × JsonResult :=
  if !u.isSignedIn then
    (st, { success := false, error := some "User not authenticated" })
  else if docId == "DocID" then
    ({ st with
        categories := updateCategoryCount "Category" (-1) st.categories,
        tags := updateTagCounts (some "Tags") (-1) st.tags,
        favorites := removeFromAllFavorites docId st.favorites,
        activityLog := st.activityLog ++
          [logRow u now actIdF "Deleted Document" docId "Permanently deleted \"DocumentName\""] },
      { success := true, message := some "Document deleted successfully" })
  else
    match st.documents.find? (fun d => d.DocID == docId) with
    | none => (st, { success := false, error := some "Document not found" })
    | some d0 =>
      ({ st with
          documents := eraseFirstDoc docId st.documents,
          categories := updateCategoryCount d0.Category (-1) st.categories,
          tags := if !(d0.Tags == "") then updateTagCounts (some d0.Tags) (-1) st.tags
            else st.tags,
          favorites := removeFromAllFavorites docId st.favorites,
          activityLog := st.activityLog ++
            [logRow u now actIdF "Deleted Document" docId
              ("Permanently deleted \"" ++ d0.DocumentName ++ "\"")] },
        { success := true, message := some "Document deleted successfully" })

-- =====================================
-- Favorites
-- =====================================

/-- Remove the first favorite row matching `(email, docId)`; models the
`findIndex` plus `deleteRow` of `toggleFavorite`. -/
def removeFirstFav (email docId : String) : List FavoriteRow → List FavoriteRow
  | [] => []
  | f :: rest =>
    if f.UserEmail == email && f.DocID == docId then rest
    else f :: removeFirstFav email docId rest

/-- Model of `toggleFavorite(docId)` (src/Code.js lines 503-531).
`data.findIndex(row => row[1] === email && row[2] === docId)` scans the
header (cells `'UserEmail'`, `'DocID'`); a hit is acted on only when
`rowIndex > 0`, so on the degenerate header hit the code falls into the
insert branch.  A data-row hit deletes the row, logs `Removed Favorite`
and returns `favorited = false`; otherwise a fresh row is appended,
`Added Favorite` logged, and `favorited = true` returned. -/
def toggleFavorite (u : CurrentUser) (now : Nat) (favIdF actIdF : String) (docId : String)
    (st : Store) : Store × JsonResult :=
  if !u.isSignedIn then
    (st, { success := false, error := some "User not authenticated" })
  else if !(u.email == "UserEmail" && docId == "DocID") &&
      st.favorites.any (fun f => f.UserEmail == u.email && f.DocID == docId) then
    ({ st with
        favorites := removeFirstFav u.email docId st.favorites,
        activityLog := st.activityLog ++
          [logRow u now actIdF "Removed Favorite" docId "Removed from favorites"] },
      { success := true, favorited := some false })
  else
    ({ st with
        favorites := st.favorites ++ [⟨favIdF, u.email, docId, now⟩],
        activityLog := st.activityLog ++
          [logRow u now actIdF "Added Favorite" docId "Added to favorites"] },
      { success := true, favorited := some true })

/-- The favorite ids of a user, as computed by `getUserFavorites()`
(src/Code.js lines 483-501) for a signed-in user: the `DocID` cells of the
data rows whose `UserEmail` matches. -/
def favoriteIdsOf (email : String) (st : Store) : List String :=
  ((st.favorites.filter (fun f => f.UserEmail == email)).map (fun f => f.DocID))

-- =====================================
-- Read endpoints
-- =====================================

/-- The optional filter object of `getDocuments` (src/Code.js line 188). -/
structure DocFilters where
  status : Option (List String) := none
  categories : Option (List String) := none
  fileTypes : Option (List String) := none
  sortBy : Option String := none
deriving Repr, DecidableEq

/-- One conjunct of `passesFilters` (src/Code.js lines 690-695): a
provided, non-empty allow-list that does not contain the value rejects
the document. -/
def filterRejects (o : Option (List String)) (v : String) : Bool :=
  match o with
  | none => false
  | some l => !(l.length == 0) && !(l.contains v)

/-- Model of `passesFilters(doc, filters)` (src/Code.js lines 690-695). -/
def passesFilters (d : Document) (f : DocFilters) : Bool :=
  !(filterRejects f.status d.Status) && !(filterRejects f.categories d.Category) &&
    !(filterRejects f.fileTypes d.FileType)

/-- The comparison relation of `getSortFunction(sortBy)` (src/Code.js lines
697-704), as a boolean "comes no later than" relation (`localeCompare` on
names modelled as code-point order). -/
def docLe (sortKey : String) (a b : Document) : Bool :=
  if sortKey == "name_asc" then a.DocumentName ≤ b.DocumentName
  else if sortKey == "name_desc" then b.DocumentName ≤ a.DocumentName
  else if sortKey == "date_asc" then a.DateAdded ≤ b.DateAdded
  else b.LastModified ≤ a.LastModified

/-- The document list returned by `getDocuments(filters)` (src/Code.js
lines 188-209): empty sheet short-circuits to `[]`; otherwise the data
rows passing the filters, sorted by `filters.sortBy || 'date_desc'`.  The
wrapper object is `{ success: true, documents }`. -/
def getDocumentsList (f : DocFilters) (st : Store) : List Document :=
  if st.documents.length == 0 then []
  else
    jsSort (docLe (if truthyS f.sortBy then f.sortBy.getD "" else "date_desc"))
      (st.documents.filter (fun d => passesFilters d f))

/-- A `categories` entry of `getCategories()` (src/Code.js lines 418-420):
the mapped object drops the `Active` cell. -/
structure CategoryView where
  CategoryID : String
  CategoryName : String
  CreatedBy : String
  DateCreated : Nat
  DocumentCount : Int
deriving Repr, DecidableEq, Inhabited

/-- The list returned by `getCategories()` (src/Code.js lines 412-427):
empty sheet gives `[]`; otherwise the rows with `Active = true`, mapped
and sorted by name ascending (`localeCompare` modelled as code-point
order).  `row[5] || 0` re-reads a missing count as 0; counts are modelled
as always-present integers. -/
def getCategoriesList (st : Store) : List CategoryView :=
  if st.categories.length == 0 then []
  else
    jsSort (fun a b => a.CategoryName ≤ b.CategoryName)
      ((st.categories.filter (fun c => c.Active)).map
        (fun c => ⟨c.CategoryID, c.CategoryName, c.CreatedBy, c.DateCreated, c.DocumentCount⟩))

/-- The list returned by `getTags()` (src/Code.js lines 462-477): all data
rows sorted by usage count descending. -/
def getTagsList (st : Store) : List TagRow :=
  if st.tags.length == 0 then []
  else jsSort (fun a b => b.UsageCount ≤ a.UsageCount) st.tags

/-- The list returned by `getRecentActivity(limit)` (src/Code.js lines
582-598): `data.slice(Math.max(1, data.length - limit)).reverse()` over
the header-plus-rows array, i.e. the last `limit` data rows, most recent
first. -/
def getRecentActivityList (limit : Nat) (st : Store) : List ActivityRow :=
  if st.activityLog.length == 0 then []
  else (st.activityLog.drop (max 1 (st.activityLog.length + 1 - limit) - 1)).reverse

/-- The `totalViews` of `getAnalyticsData()` (src/Code.js lines 567-580):
`getLastRow() - 1`, i.e. the number of data rows (the other summary fields
are constant empty aggregates). -/
def getAnalyticsTotalViews (st : Store) : Nat :=
  if st.analytics.length == 0 then 0 else st.analytics.length

/-- The combined object built by `getInitialData()` (src/Code.js lines
52-77) for a signed-in user.  The `analytics` sub-object is represented by
its only varying field, `totalViews`. -/
structure InitResponse where
  success : Bool
  error : Option String := none
  user : Option CurrentUser := none
  documents : List Document := []
  categories : List CategoryView := []
  tags : List TagRow := []
  favorites : List String := []
  recentActivity : List ActivityRow := []
  onlineUsers : List SessionView := []
  analyticsTotalViews : Nat := 0
deriving Repr, DecidableEq, Inhabited

/-- Model of `getInitialData()` (src/Code.js lines 52-77): one combined
response.  Each sub-fetch feeding a field is followed by `|| []`, so a
sub-result without the expected field contributes an empty default.  The
`onlineUsers` field reads the `users` property of the return value of
`getOnlineUsers()` — which is a `JSON.stringify` string, not an object, so
the property access yields `undefined`, and the field is always `[]`
(while the sweep side effect of `getOnlineUsers` still runs).  The
`Analytics` sheet is read after that call (object-literal fields evaluate
in order), which only mutates the sessions sheet. -/
def getInitialData (u : CurrentUser) (now : Nat) (st : Store) : Store × InitResponse :=
  if !u.isSignedIn then
    (st, { success := false, error := some "User not authenticated" })
  else
    let p := getOnlineUsers now st
    (p.1,
      { success := true
        user := some u
        documents := getDocumentsList {} st
        categories := getCategoriesList st
        tags := getTagsList st
        favorites := favoriteIdsOf u.email st
        recentActivity := getRecentActivityList 20 st
        onlineUsers := (stringPropUsers p.2).getD []
        analyticsTotalViews := getAnalyticsTotalViews p.1 })

-- =====================================
-- Derived notions used by the statements
-- =====================================

/-- The number of document rows whose `Category` cell equals `name`
(every row of the Documents sheet is a non-deleted document: deletion
removes the row). -/
def countCat (name : String) (docs : List Document) : Nat :=
  (docs.filter (fun d => d.Category == name)).length

/-- The number of document rows whose `Tags` string contains `name` as a
comma-separated, trimmed entry. -/
def countTagDocs (name : String) (docs : List Document) : Nat :=
  (docs.filter (fun d => (splitTags d.Tags).contains name)).length

/-- Is `(email, docId)` currently favorited (a matching row exists)? -/
def isFavoritedIn (email docId : String) (st : Store) : Bool :=
  st.favorites.any (fun f => f.UserEmail == email && f.DocID == docId)

/-- One invocation of a document mutation, with all the request-ambient
inputs (current user, clock, generated ids) it consumes. -/
inductive Op where
  | add (u : CurrentUser) (now : Nat) (docIdF actIdF : String) (input : AddInput)
  | upd (u : CurrentUser) (now : Nat) (actIdF : String) (docId : String) (upds : DocUpdates)
  | del (u : CurrentUser) (now : Nat) (actIdF : String) (docId : String)

/-- The store after one operation (results discarded). -/
def applyOp (st : Store) : Op → Store
  | .add u now d a i => (addDocument u now d a i st).1
  | .upd u now a id us => (updateDocument u now a id us st).1
  | .del u now a id => (deleteDocument u now a id st).1

/-- The store after a sequence of operations. -/
def applyOps (st : Store) (ops : List Op) : Store := ops.foldl applyOp st

/-- Well-formed invocations: document ids are never the header literal
`'DocID'` (real ids are generated as `DOC_...`), and no update sets
`Category` to the empty string (the adjustment the counterexample for the
category invariant exhibits). -/
def WfOp : Op → Prop
  | .add .. => True
  | .upd _ _ _ docId upds => docId ≠ "DocID" ∧ upds.Category ≠ some ""
  | .del _ _ _ docId => docId ≠ "DocID"

/-- Well-formedness of the category sheet together with the counter
invariant: category names are pairwise distinct (the spec declares `name`
unique), no category usurps the header literal `'CategoryName'`, and every
counter equals the number of document rows referencing the category. -/
def CatOk (st : Store) : Prop :=
  (st.categories.map CategoryRow.CategoryName).Nodup ∧
  (∀ c ∈ st.categories, c.CategoryName ≠ "CategoryName") ∧
  (∀ c ∈ st.categories, c.DocumentCount = (countCat c.CategoryName st.documents : Int))

-- =====================================
-- Helper lemmas
-- =====================================

theorem jsInsert_perm (le : α → α → Bool) (x : α) (l : List α) :
    (jsInsert le x l).Perm (x :: l) := by
  induction l with
  | nil => exact List.Perm.refl _
  | cons y ys ih =>
    rw [jsInsert]
    split
    · exact List.Perm.refl _
    · exact (ih.cons y).trans (List.Perm.swap x y ys)

theorem jsSort_perm (le : α → α → Bool) (l : List α) : (jsSort le l).Perm l := by
  induction l with
  | nil => exact List.Perm.refl _
  | cons x xs ih => exact (jsInsert_perm le x (jsSort le xs)).trans (ih.cons x)

theorem mem_jsSort {le : α → α → Bool} {l : List α} {a : α} :
    a ∈ jsSort le l ↔ a ∈ l := (jsSort_perm le l).mem_iff

theorem mem_modifyAt {l : List α} {i : Nat} {f : α → α} {r : α}
    (h : r ∈ modifyAt i f l) : r ∈ l ∨ ∃ x ∈ l, r = f x := by
  induction l generalizing i with
  | nil => simp [modifyAt] at h
  | cons x xs ih =>
    match i with
    | 0 =>
      rw [modifyAt] at h
      rcases List.mem_cons.mp h with h | h
      · exact Or.inr ⟨x, List.mem_cons_self x xs, h⟩
      · exact Or.inl (List.mem_cons_of_mem x h)
    | i + 1 =>
      rw [modifyAt] at h
      rcases List.mem_cons.mp h with h | h
      · exact Or.inl (h ▸ List.mem_cons_self x xs)
      · rcases ih h with h | ⟨y, hy, hr⟩
        · exact Or.inl (List.mem_cons_of_mem x h)
        · exact Or.inr ⟨y, List.mem_cons_of_mem x hy, hr⟩

theorem mem_removeUserSession {email : String} {l : List SessionRow} {r : SessionRow}
    (h : r ∈ removeUserSession email l) : r ∈ l := by
  induction l with
  | nil => simp [removeUserSession] at h
  | cons x xs ih =>
    rw [removeUserSession] at h
    split at h
    · exact h
    · split at h
      · exact List.mem_cons_of_mem x h
      · rcases List.mem_cons.mp h with h | h
        · exact h ▸ List.mem_cons_self x xs
        · exact List.mem_cons_of_mem x (ih h)

-- =====================================
-- C9: file-type inference
-- =====================================

set_option maxHeartbeats 1000000 in
theorem detectFileType_spec_eq (url : String) :
    detectFileType url = detectFileTypeSpec url := by
  rw [detectFileType, detectFileTypeSpec, fileTypePatterns]
  simp only [firstMatch]
  repeat' split <;> simp_all

set_option maxHeartbeats 1000000 in
theorem detectFileType_mem (url : String) : detectFileType url ∈ fileTypeLabels := by
  rw [detectFileType, fileTypeLabels]
  repeat' split
  all_goals simp

theorem detectFileType_website (url : String) (h0 : (url == "") = false)
    (h : ∀ pr ∈ fileTypePatterns, pr.1 url = false) :
    detectFileType url = "Website" := by
  simp only [fileTypePatterns, List.mem_cons, forall_eq_or_imp, List.not_mem_nil] at h
  obtain ⟨h1, h2, h3, h4, h5, h6, h7, h8, h9, -⟩ := h
  rw [detectFileType]
  by_cases hd : jsIncludes url "drive.google.com/file" = true
  · simp_all
  · simp_all

/-- C9: for every input, `detectFileType` classifies a URL into one of the
eleven labels by substring pattern match in the listed priority order with
first match winning (it coincides with the first-match classifier
`detectFileTypeSpec` over `fileTypePatterns`); an empty/absent URL yields
`Other`, and a non-empty URL matching no pattern yields `Website`. -/
theorem C9_file_type_inference (url : String) :
    detectFileType url = detectFileTypeSpec url ∧
    detectFileType "" = "Other" ∧
    ((url == "") = false → (∀ pr ∈ fileTypePatterns, pr.1 url = false) →
      detectFileType url = "Website") ∧
    detectFileType url ∈ fileTypeLabels :=
  ⟨detectFileType_spec_eq url, rfl, detectFileType_website url, detectFileType_mem url⟩

/-- Witness for C9 at a concrete URL matching no pattern. -/
theorem C9_file_type_inference_witness :
    detectFileType "https://example.com/page" = "Website" :=
  (C9_file_type_inference "https://example.com/page").2.2.1 (by decide) (by decide)

-- =====================================
-- C1: tag-counter invariant (code bug)
-- =====================================

/-- C1: the claimed tag-counter invariant fails on the code.  Starting from
a store satisfying it (one Active document `DOC_1` with `Tags = "report"`,
one tag row `report` with `usageCount = 1`), `archiveDocument` — whose
inner update carries no `Tags` key — decrements the tag counter to 0
because the guard `updates.Tags !== oldTags` is true when `updates.Tags`
is `undefined`, even though the document's `Tags` string did not change by
value and still lists `report`. -/
theorem C1_tag_counter_code_bug :
    (let d : Document :=
      ⟨"DOC_1", "Doc One", "https://example.com/1", "", "Finance", "Website",
        "alice@example.com", "report", 5, 5, "Active"⟩
     let st : Store :=
      ⟨[d], [⟨"CAT_1", "Finance", "alice@example.com", 0, true, 1⟩],
        [⟨"TAG_1", "report", "alice@example.com", 0, 1⟩], [], [], [], []⟩
     let u : CurrentUser := ⟨true, "alice@example.com", "Alice", "A"⟩
     let st' := (archiveDocument u 100 "ACT_1" "ACT_2" "DOC_1" st).1
     (∀ t ∈ st.tags, t.UsageCount = (countTagDocs t.TagName st.documents : Int)) ∧
     st'.documents.map Document.Tags = ["report"] ∧
     st'.tags.map TagRow.UsageCount = [0] ∧
     ¬ (∀ t ∈ st'.tags, t.UsageCount = (countTagDocs t.TagName st'.documents : Int))) := by
  decide

-- =====================================
-- C4: bootstrap aggregate read (code bug)
-- =====================================

/-- C4: the aggregate bootstrap read does not return the online users.
With one live session, `getInitialData` reports `onlineUsers = []` even
though the online-users read computes a one-element list, because
`getOnlineUsers()` returns a `JSON.stringify` string and `getInitialData`
reads the `users` property off that string, which is `undefined`, so the
`|| []` default always applies. -/
theorem C4_online_users_code_bug :
    (let s : SessionRow := ⟨"SES_1", "bob@example.com", "Bob", 90, 90, "B", "Online"⟩
     let st : Store := ⟨[], [], [], [], [s], [], []⟩
     let u : CurrentUser := ⟨true, "alice@example.com", "Alice", "A"⟩
     let r := getInitialData u 100 st
     r.2.success = true ∧
     r.2.onlineUsers = [] ∧
     (getOnlineUsersCore 100 r.1).2 = [toView s] ∧
     r.2.onlineUsers ≠ (getOnlineUsersCore 100 r.1).2) := by
  decide

-- =====================================
-- C3: duplicate-URL rejection leaves the store unchanged
-- =====================================

/-- C3: for every store in which some document row (any status) already has
url `u`, a well-formed add of a document with url `u` (signed-in user,
required fields present) fails with the duplicate-URL error and returns the
store unchanged — in particular, when exactly one row had url `u`, exactly
one still does, and no counter or activity entry changes (the whole store
is returned untouched). -/
theorem C3_duplicate_url_rejected
    (u : CurrentUser) (now : Nat) (docIdF actIdF : String) (input : AddInput)
    (url : String) (st : Store)
    (hs : u.isSignedIn = true)
    (hname : truthyS input.DocumentName = true)
    (hcat : truthyS input.Category = true)
    (hurl : input.GoogleDriveURL = some url) (hu : url ≠ "")
    (hdup : ∃ d ∈ st.documents, d.GoogleDriveURL = url) :
    addDocument u now docIdF actIdF input st =
      (st, { success := false, error := some "A document with this URL already exists" }) ∧
    ((st.documents.filter (fun d => d.GoogleDriveURL == url)).length = 1 →
      ((addDocument u now docIdF actIdF input st).1.documents.filter
        (fun d => d.GoogleDriveURL == url)).length = 1) := by
  have hturl : truthyS input.GoogleDriveURL = true := by
    rw [hurl]; simp [truthyS, hu]
  have hdup' : isDuplicateURL (input.GoogleDriveURL.getD "") st.documents = true := by
    rw [hurl]
    obtain ⟨d, hd, he⟩ := hdup
    rw [isDuplicateURL, List.any_eq_true]
    exact ⟨d, hd, by simp [he]⟩
  have hmain : addDocument u now docIdF actIdF input st =
      (st, { success := false, error := some "A document with this URL already exists" }) := by
    rw [addDocument]
    simp [hs, hname, hcat, hturl, hdup']
  exact ⟨hmain, fun h => by rw [hmain]; exact h⟩

/-- Witness for C3: a second add of an already-stored URL is rejected and
the one-row store is returned unchanged. -/
theorem C3_duplicate_url_rejected_witness :
    addDocument ⟨true, "alice@example.com", "Alice", "A"⟩ 9 "DOC_2" "ACT_9"
      { DocumentName := some "Another", GoogleDriveURL := some "https://e.com/1",
        Category := some "Finance" }
      ⟨[⟨"DOC_1", "Doc", "https://e.com/1", "", "Finance", "Website",
          "alice@example.com", "", 1, 1, "Active"⟩], [], [], [], [], [], []⟩ =
      (⟨[⟨"DOC_1", "Doc", "https://e.com/1", "", "Finance", "Website",
          "alice@example.com", "", 1, 1, "Active"⟩], [], [], [], [], [], []⟩,
        { success := false, error := some "A document with this URL already exists" }) :=
  (C3_duplicate_url_rejected _ _ _ _ _ _ _ rfl (by decide) (by decide) rfl (by decide)
    (by decide)).1

-- =====================================
-- C5: delete cascades favorite removal
-- =====================================

theorem eraseFirstDoc_length {docId : String} {docs : List Document}
    (h : docs.any (fun d => d.DocID == docId) = true) :
    (eraseFirstDoc docId docs).length + 1 = docs.length := by
  induction docs with
  | nil => simp at h
  | cons d rest ih =>
    rw [eraseFirstDoc]
    split
    · rfl
    · rename_i hne
      rw [List.any_cons] at h
      simp only [hne, Bool.false_or] at h
      simp [ih h]

theorem eraseFirstDoc_no_match {docId : String} {docs : List Document}
    (hle : (docs.filter (fun d => d.DocID == docId)).length ≤ 1) :
    ∀ d ∈ eraseFirstDoc docId docs, d.DocID ≠ docId := by
  induction docs with
  | nil => simp [eraseFirstDoc]
  | cons d rest ih =>
    rw [eraseFirstDoc]
    split
    · rename_i heq
      intro x hx hxid
      simp only [List.filter_cons, heq, if_true] at hle
      have : (rest.filter (fun d => d.DocID == docId)).length = 0 := by
        simp only [List.length_cons] at hle
        omega
      rw [List.length_eq_zero, List.filter_eq_nil_iff] at this
      exact this x hx (by simp [hxid])
    · rename_i hne
      intro x hx
      rcases List.mem_cons.mp hx with h | h
      · subst h; simpa using hne
      · simp only [List.filter_cons, hne, if_false] at hle
        exact ih hle x h

/-- C5: for every document id present (once) in the store, `deleteDocument`
succeeds, permanently removes that document row, and removes every
Favorite row referencing the id across all users, so that afterwards for
all users the favorite-id listing no longer contains the id. -/
theorem C5_delete_cascades_favorites
    (u : CurrentUser) (now : Nat) (actIdF docId : String) (st : Store)
    (hs : u.isSignedIn = true) (hh : docId ≠ "DocID")
    (hpresent : ∃ d ∈ st.documents, d.DocID = docId)
    (hunique : (st.documents.filter (fun d => d.DocID == docId)).length ≤ 1) :
    ((deleteDocument u now actIdF docId st).2.success = true) ∧
    ((deleteDocument u now actIdF docId st).1.documents.length + 1 = st.documents.length) ∧
    (∀ d ∈ (deleteDocument u now actIdF docId st).1.documents, d.DocID ≠ docId) ∧
    (∀ f ∈ (deleteDocument u now actIdF docId st).1.favorites, f.DocID ≠ docId) ∧
    (∀ email, docId ∉ favoriteIdsOf email (deleteDocument u now actIdF docId st).1) := by
  obtain ⟨d, hd, hid⟩ := hpresent
  have hany : st.documents.any (fun x => x.DocID == docId) = true := by
    rw [List.any_eq_true]
    exact ⟨d, hd, by simp [hid]⟩
  cases hf : st.documents.find? (fun x => x.DocID == docId) with
  | none =>
    rw [List.find?_eq_none] at hf
    exact absurd (by simp [hid] : (d.DocID == docId) = true) (hf d hd)
  | some d0 =>
    rw [deleteDocument]
    simp only [hs, Bool.not_true, Bool.false_eq_true, if_false, beq_iff_eq, hh, hf]
    refine ⟨trivial, eraseFirstDoc_length hany, eraseFirstDoc_no_match hunique, ?_, ?_⟩
    · intro f hf'
      simp only [removeFromAllFavorites, List.mem_filter] at hf'
      simpa using hf'.2
    · intro email hmem
      simp only [favoriteIdsOf, removeFromAllFavorites, List.mem_map, List.mem_filter] at hmem
      obtain ⟨f, ⟨⟨_, hnot⟩, _⟩, hfid⟩ := hmem
      simp [hfid] at hnot

/-- Witness for C5: after deleting `DOC_1`, Bob's favorite ids no longer
contain it. -/
theorem C5_delete_cascades_favorites_witness :
    "DOC_1" ∉ favoriteIdsOf "bob@example.com"
      (deleteDocument ⟨true, "alice@example.com", "Alice", "A"⟩ 7 "ACT_9" "DOC_1"
        ⟨[⟨"DOC_1", "Doc", "https://e.com/1", "", "Finance", "Website",
            "alice@example.com", "", 1, 1, "Active"⟩],
          [], [], [⟨"FAV_1", "alice@example.com", "DOC_1", 2⟩,
            ⟨"FAV_2", "bob@example.com", "DOC_1", 3⟩], [], [], []⟩).1 :=
  (C5_delete_cascades_favorites _ _ _ _ _ rfl (by decide) (by decide)
    (by decide)).2.2.2.2 "bob@example.com"

-- =====================================
-- C7: toggle favorite
-- =====================================

theorem removeFirstFav_eq_filter {email docId : String} {l : List FavoriteRow}
    (hle : (l.filter (fun f => f.UserEmail == email && f.DocID == docId)).length ≤ 1) :
    removeFirstFav email docId l =
      l.filter (fun f => !(f.UserEmail == email && f.DocID == docId)) := by
  induction l with
  | nil => rfl
  | cons f rest ih =>
    rw [removeFirstFav]
    split
    · rename_i hm
      simp only [List.filter_cons, hm, if_true, List.length_cons] at hle
      have h0 : (rest.filter (fun f => f.UserEmail == email && f.DocID == docId)).length = 0 := by
        omega
      rw [List.length_eq_zero, List.filter_eq_nil_iff] at h0
      have hself : rest.filter (fun f => !(f.UserEmail == email && f.DocID == docId)) = rest :=
        List.filter_eq_self.mpr (fun a ha => by
          have := h0 a ha
          simp only [Bool.not_eq_true] at this ⊢
          simp [this])
      rw [List.filter_cons]
      simp only [hm, Bool.not_true, Bool.false_eq_true, if_false]
      exact hself.symm
    · rename_i hm
      have hm' : (f.UserEmail == email && f.DocID == docId) = false := by
        simpa using hm
      simp only [List.filter_cons, hm', Bool.false_eq_true, if_false] at hle
      rw [ih hle, List.filter_cons]
      simp only [hm', Bool.not_false, if_true]

theorem removeFirstFav_append_fresh {email docId : String} {l : List FavoriteRow}
    {row : FavoriteRow}
    (hnone : ∀ f ∈ l, (f.UserEmail == email && f.DocID == docId) = false)
    (hrow : (row.UserEmail == email && row.DocID == docId) = true) :
    removeFirstFav email docId (l ++ [row]) = l := by
  induction l with
  | nil => simp [removeFirstFav, hrow]
  | cons f rest ih =>
    rw [List.cons_append, removeFirstFav]
    have hf := hnone f (List.mem_cons_self f rest)
    simp only [hf, Bool.false_eq_true, if_false]
    rw [ih (fun x hx => hnone x (List.mem_cons_of_mem f hx))]

theorem any_filter_not {m q : α → Bool} {l : List α}
    (h : ∀ a ∈ l, m a = true → q a = false) :
    (l.filter (fun a => !m a)).any q = l.any q := by
  induction l with
  | nil => rfl
  | cons a rest ih =>
    rw [List.filter_cons]
    cases hm : m a with
    | true =>
      simp only [hm, Bool.not_true, Bool.false_eq_true, if_false, List.any_cons,
        h a (List.mem_cons_self a rest) hm, Bool.false_or]
      exact ih (fun x hx => h x (List.mem_cons_of_mem a hx))
    | false =>
      simp only [hm, Bool.not_false, if_true, List.any_cons]
      rw [ih (fun x hx => h x (List.mem_cons_of_mem a hx))]

theorem filter_not_any_self {m : α → Bool} {l : List α} :
    (l.filter (fun a => !m a)).any m = false := by
  rw [Bool.eq_false_iff]
  intro h
  rw [List.any_eq_true] at h
  obtain ⟨a, ha, hm⟩ := h
  rw [List.mem_filter] at ha
  simp [hm] at ha

theorem toggle_on (u : CurrentUser) (now : Nat) (favIdF actIdF docId : String) (st : Store)
    (hs : u.isSignedIn = true)
    (hg : (u.email == "UserEmail" && docId == "DocID") = false)
    (hfav : st.favorites.any (fun f => f.UserEmail == u.email && f.DocID == docId) = true) :
    toggleFavorite u now favIdF actIdF docId st =
      ({ st with
          favorites := removeFirstFav u.email docId st.favorites,
          activityLog := st.activityLog ++
            [logRow u now actIdF "Removed Favorite" docId "Removed from favorites"] },
        { success := true, favorited := some false }) := by
  rw [toggleFavorite]
  simp [hs, hg, hfav]

theorem toggle_off (u : CurrentUser) (now : Nat) (favIdF actIdF docId : String) (st : Store)
    (hs : u.isSignedIn = true)
    (hfav : st.favorites.any (fun f => f.UserEmail == u.email && f.DocID == docId) = false) :
    toggleFavorite u now favIdF actIdF docId st =
      ({ st with
          favorites := st.favorites ++ [⟨favIdF, u.email, docId, now⟩],
          activityLog := st.activityLog ++
            [logRow u now actIdF "Added Favorite" docId "Added to favorites"] },
        { success := true, favorited := some true }) := by
  rw [toggleFavorite]
  simp [hs, hfav]


/-- C7: for a signed-in user and document id, if a favorite row for the
pair exists (favorites satisfy the at-most-one-row invariant), toggling
deletes it and returns `favorited = false`; otherwise it inserts one and
returns `favorited = true`.  Toggling twice restores the original
favorite state (the favorited relation on all pairs), and starting from
not-favorited the two calls return `true` then `false` and restore the
favorites table exactly. -/
theorem C7_toggle_favorite
    (u : CurrentUser) (now1 now2 : Nat) (favId1 actId1 favId2 actId2 docId : String)
    (st : Store)
    (hs : u.isSignedIn = true) (hhdr : u.email ≠ "UserEmail")
    (hone : (st.favorites.filter
      (fun f => f.UserEmail == u.email && f.DocID == docId)).length ≤ 1) :
    (isFavoritedIn u.email docId st = true →
      (toggleFavorite u now1 favId1 actId1 docId st).2.favorited = some false ∧
      (toggleFavorite u now1 favId1 actId1 docId st).1.favorites =
        st.favorites.filter (fun f => !(f.UserEmail == u.email && f.DocID == docId))) ∧
    (isFavoritedIn u.email docId st = false →
      (toggleFavorite u now1 favId1 actId1 docId st).2.favorited = some true ∧
      (toggleFavorite u now1 favId1 actId1 docId st).1.favorites =
        st.favorites ++ [⟨favId1, u.email, docId, now1⟩]) ∧
    (∀ e d, isFavoritedIn e d
        (toggleFavorite u now2 favId2 actId2 docId
          (toggleFavorite u now1 favId1 actId1 docId st).1).1 = isFavoritedIn e d st) ∧
    (isFavoritedIn u.email docId st = false →
      (toggleFavorite u now2 favId2 actId2 docId
        (toggleFavorite u now1 favId1 actId1 docId st).1).1.favorites = st.favorites ∧
      (toggleFavorite u now2 favId2 actId2 docId
        (toggleFavorite u now1 favId1 actId1 docId st).1).2.favorited = some false) := by
  have hg : (u.email == "UserEmail" && docId == "DocID") = false := by
    simp [hhdr]
  by_cases hfav : isFavoritedIn u.email docId st = true
  · -- initially favorited
    rw [isFavoritedIn] at hfav
    have h1 := toggle_on u now1 favId1 actId1 docId st hs hg hfav
    have hrm := removeFirstFav_eq_filter hone
    have hany2 : ((toggleFavorite u now1 favId1 actId1 docId st).1.favorites.any
        (fun f => f.UserEmail == u.email && f.DocID == docId)) = false := by
      rw [h1]
      simpa [hrm] using
        (filter_not_any_self
          (m := fun f => f.UserEmail == u.email && f.DocID == docId)
          (l := st.favorites))
    have h2 := toggle_off u now2 favId2 actId2 docId
      (toggleFavorite u now1 favId1 actId1 docId st).1 hs hany2
    refine ⟨?_, ?_, ?_, ?_⟩
    · intro _
      rw [h1, hrm]
      exact ⟨rfl, rfl⟩
    · intro hcon
      rw [isFavoritedIn] at hcon
      rw [hfav] at hcon
      exact absurd hcon (by simp)
    · intro e d
      rw [isFavoritedIn, h2]
      simp only [h1, hrm, List.any_append, List.any_cons, List.any_nil, Bool.or_false]
      by_cases hpair : e = u.email ∧ d = docId
      · obtain ⟨he, hd⟩ := hpair
        subst he hd
        rw [filter_not_any_self]
        rw [isFavoritedIn, hfav]
        simp
      · have hrow : ((⟨favId2, u.email, docId, now2⟩ : FavoriteRow).UserEmail == e &&
            (⟨favId2, u.email, docId, now2⟩ : FavoriteRow).DocID == d) = false := by
          rcases not_and_or.mp hpair with h | h <;> simp [Ne.symm h]
        have hq : ∀ a ∈ st.favorites,
            (a.UserEmail == u.email && a.DocID == docId) = true →
            (a.UserEmail == e && a.DocID == d) = false := by
          intro a _ hma
          simp only [Bool.and_eq_true, beq_iff_eq] at hma
          rcases not_and_or.mp hpair with h | h
          · simp [hma.1, Ne.symm h]
          · simp [hma.2, Ne.symm h]
        rw [hrow, Bool.or_false, any_filter_not hq, isFavoritedIn]
    · intro hcon
      rw [isFavoritedIn] at hcon
      rw [hfav] at hcon
      exact absurd hcon (by simp)
  · -- initially not favorited
    have hfav' : st.favorites.any
        (fun f => f.UserEmail == u.email && f.DocID == docId) = false := by
      rw [isFavoritedIn] at hfav
      simpa using hfav
    have h1 := toggle_off u now1 favId1 actId1 docId st hs hfav'
    have hany2 : ((toggleFavorite u now1 favId1 actId1 docId st).1.favorites.any
        (fun f => f.UserEmail == u.email && f.DocID == docId)) = true := by
      rw [h1]
      simp
    have h2 := toggle_on u now2 favId2 actId2 docId
      (toggleFavorite u now1 favId1 actId1 docId st).1 hs hg hany2
    have hnone : ∀ f ∈ st.favorites,
        (f.UserEmail == u.email && f.DocID == docId) = false := by
      intro f hf
      rw [List.any_eq_false] at hfav'
      simpa using hfav' f hf
    have hback : removeFirstFav u.email docId
        (st.favorites ++ [⟨favId1, u.email, docId, now1⟩]) = st.favorites :=
      removeFirstFav_append_fresh hnone (by simp)
    refine ⟨?_, ?_, ?_, ?_⟩
    · intro hcon
      rw [hcon] at hfav
      exact absurd rfl hfav
    · intro _
      rw [h1]
      exact ⟨rfl, rfl⟩
    · intro e d
      rw [isFavoritedIn, h2]
      simp only [h1]
      rw [hback]
      rfl
    · intro _
      rw [h2]
      simp only [h1]
      rw [hback]
      exact ⟨rfl, trivial⟩


/-- Witness for C7: double-toggle on an empty favorites table restores it
and the second call reports `favorited = false`. -/
theorem C7_toggle_favorite_witness :
    (toggleFavorite ⟨true, "alice@example.com", "Alice", "A"⟩ 2 "FAV_2" "ACT_2" "DOC_1"
      (toggleFavorite ⟨true, "alice@example.com", "Alice", "A"⟩ 1 "FAV_1" "ACT_1" "DOC_1"
        ⟨[], [], [], [], [], [], []⟩).1).1.favorites = [] ∧
    (toggleFavorite ⟨true, "alice@example.com", "Alice", "A"⟩ 2 "FAV_2" "ACT_2" "DOC_1"
      (toggleFavorite ⟨true, "alice@example.com", "Alice", "A"⟩ 1 "FAV_1" "ACT_1" "DOC_1"
        ⟨[], [], [], [], [], [], []⟩).1).2.favorited = some false :=
  (C7_toggle_favorite ⟨true, "alice@example.com", "Alice", "A"⟩ 1 2 "FAV_1" "ACT_1"
    "FAV_2" "ACT_2" "DOC_1" ⟨[], [], [], [], [], [], []⟩ rfl (by decide)
    (by decide)).2.2.2 (by decide)

-- =====================================
-- C6: session expiry sweep
-- =====================================

theorem mem_cleanup {now : Nat} {l : List SessionRow} {r : SessionRow}
    (h : r ∈ cleanupExpiredSessions now l) :
    ((now : Int) - r.LastActivity ≤ sessionTimeoutMs) ∧ r ∈ l := by
  rw [cleanupExpiredSessions, List.mem_filter] at h
  refine ⟨?_, h.1⟩
  have := h.2
  simp only [Bool.not_eq_true', decide_eq_false_iff_not, not_lt] at this
  omega

theorem track_sessions_bounded
    (u : CurrentUser) (a : SessAction) (now : Nat) (freshId : String) (st : Store)
    (hs : u.isSignedIn = true) :
    ∀ r ∈ (trackUserSession u a now freshId st).1.sessions,
      (now : Int) - r.LastActivity ≤ sessionTimeoutMs := by
  intro r hr
  rw [trackUserSession] at hr
  simp only [hs, Bool.not_true, Bool.false_eq_true, if_false] at hr
  cases a with
  | logout =>
    simp only at hr
    exact (mem_cleanup (mem_removeUserSession hr)).1
  | login =>
    simp only at hr
    cases hidx : (cleanupExpiredSessions now st.sessions).findIdx?
        (fun x => x.UserEmail == u.email) with
    | some i =>
      rw [hidx] at hr
      simp only at hr
      rcases mem_modifyAt hr with h | ⟨x, hx, hrx⟩
      · exact (mem_cleanup h).1
      · subst hrx
        simp [sessionTimeoutMs]
    | none =>
      rw [hidx] at hr
      simp only at hr
      rcases List.mem_append.mp hr with h | h
      · exact (mem_cleanup h).1
      · simp only [List.mem_singleton] at h
        subst h
        simp [sessionTimeoutMs]
  | heartbeat =>
    simp only at hr
    cases hidx : (cleanupExpiredSessions now st.sessions).findIdx?
        (fun x => x.UserEmail == u.email) with
    | some i =>
      rw [hidx] at hr
      simp only at hr
      rcases mem_modifyAt hr with h | ⟨x, hx, hrx⟩
      · exact (mem_cleanup h).1
      · subst hrx
        simp [sessionTimeoutMs]
    | none =>
      rw [hidx] at hr
      simp only at hr
      rcases List.mem_append.mp hr with h | h
      · exact (mem_cleanup h).1
      · simp only [List.mem_singleton] at h
        subst h
        simp [sessionTimeoutMs]

/-- C6: every session row whose `lastActivity` is older than the 30-minute
timeout (`now - lastActivity > sessionTimeoutMs`) is deleted by any
operation triggering the expiry sweep — login, heartbeat, logout
(`trackUserSession`), or list-online (`getOnlineUsers`) — and is absent
from the online-users listing returned afterwards. -/
theorem C6_session_expiry
    (u : CurrentUser) (now : Nat) (freshId : String) (st : Store) (s : SessionRow)
    (hs : u.isSignedIn = true)
    (hmem : s ∈ st.sessions)
    (hexp : (now : Int) - s.LastActivity > sessionTimeoutMs) :
    (∀ a : SessAction, s ∉ (trackUserSession u a now freshId st).1.sessions) ∧
    s ∉ (getOnlineUsersCore now st).1.sessions ∧
    toView s ∉ (getOnlineUsersCore now st).2 ∧
    s ∉ cleanupExpiredSessions now st.sessions := by
  have hne : st.sessions.length ≠ 0 := by
    intro h0
    rw [List.length_eq_zero] at h0
    rw [h0] at hmem
    exact List.not_mem_nil s hmem
  have hcore : getOnlineUsersCore now st =
      ({ st with sessions := cleanupExpiredSessions now st.sessions },
        jsSort (fun a b => b.lastActivity ≤ a.lastActivity)
          (((cleanupExpiredSessions now st.sessions).filter
            (fun r => r.Status == "Online")).map toView)) := by
    rw [getOnlineUsersCore]
    simp [hne]
  refine ⟨?_, ?_, ?_, ?_⟩
  · intro a hmem'
    have := track_sessions_bounded u a now freshId st hs s hmem'
    omega
  · intro hmem'
    rw [hcore] at hmem'
    simp only at hmem'
    have := (mem_cleanup hmem').1
    omega
  · intro hmem'
    rw [hcore] at hmem'
    simp only at hmem'
    rw [mem_jsSort] at hmem'
    rw [List.mem_map] at hmem'
    obtain ⟨r, hr, hrv⟩ := hmem'
    rw [List.mem_filter] at hr
    have hb := (mem_cleanup hr.1).1
    have : r.LastActivity = s.LastActivity := by
      have := congrArg SessionView.lastActivity hrv
      simpa [toView] using this
    omega
  · intro hmem'
    have := (mem_cleanup hmem').1
    omega


/-- Witness for C6: a heartbeat by another user removes Bob's session, idle
longer than the timeout. -/
theorem C6_session_expiry_witness :
    (⟨"SES_1", "bob@example.com", "Bob", 0, 0, "B", "Online"⟩ : SessionRow) ∉
      (trackUserSession ⟨true, "alice@example.com", "Alice", "A"⟩ .heartbeat 2000000 "SES_9"
        ⟨[], [], [], [], [⟨"SES_1", "bob@example.com", "Bob", 0, 0, "B", "Online"⟩],
          [], []⟩).1.sessions :=
  (C6_session_expiry ⟨true, "alice@example.com", "Alice", "A"⟩ 2000000 "SES_9"
    ⟨[], [], [], [], [⟨"SES_1", "bob@example.com", "Bob", 0, 0, "B", "Online"⟩], [], []⟩
    ⟨"SES_1", "bob@example.com", "Bob", 0, 0, "B", "Online"⟩ rfl (by decide)
    (by decide)).1 SessAction.heartbeat

-- =====================================
-- C10: archive/restore activity logging
-- =====================================

theorem updSideEffects_activityLog (upd : DocUpdates) (oc ot : String) (st : Store) :
    (updSideEffects upd oc ot st).activityLog = st.activityLog := rfl

theorem updateDocument_found_log
    (u : CurrentUser) (now : Nat) (actIdF docId : String) (upd : DocUpdates)
    (st : Store) (d0 : Document)
    (hs : u.isSignedIn = true) (hh : docId ≠ "DocID")
    (hfind : st.documents.find? (fun d => d.DocID == docId) = some d0) :
    ((updateDocument u now actIdF docId upd st).1.activityLog =
      if changeList upd d0 = [] then st.activityLog
      else st.activityLog ++ [logRow u now actIdF "Updated Document" docId
        (String.intercalate ", " (changeList upd d0))]) ∧
    (updateDocument u now actIdF docId upd st).2 =
      { success := true, message := some "Document updated successfully" } := by
  rw [updateDocument]
  simp only [hs, Bool.not_true, Bool.false_eq_true, if_false, beq_iff_eq, hh, hfind]
  rcases hclist : changeList upd d0 with _ | ⟨c, cs⟩ <;>
    simp [hclist, updSideEffects_activityLog]

/-- C10: for a document present in the store, a successful
`archiveDocument` appends two activity entries when the Status actually
changes from Active (`Updated Document` from the inner update, then
`Archived Document` from the wrapper); on an already-Archived document it
still succeeds and appends exactly one `Archived Document` entry;
`restoreDocument` behaves symmetrically with `Restored Document`. -/
theorem C10_archive_restore_logging
    (u : CurrentUser) (now : Nat) (a1 a2 docId : String) (st : Store) (d0 : Document)
    (hs : u.isSignedIn = true) (hh : docId ≠ "DocID")
    (hfind : st.documents.find? (fun d => d.DocID == docId) = some d0) :
    (d0.Status = "Active" →
      (archiveDocument u now a1 a2 docId st).1.activityLog =
        st.activityLog ++ [logRow u now a1 "Updated Document" docId "Status updated",
          logRow u now a2 "Archived Document" docId "Document archived"] ∧
      (archiveDocument u now a1 a2 docId st).2.success = true) ∧
    (d0.Status = "Archived" →
      (archiveDocument u now a1 a2 docId st).1.activityLog =
        st.activityLog ++ [logRow u now a2 "Archived Document" docId "Document archived"] ∧
      (archiveDocument u now a1 a2 docId st).2.success = true) ∧
    (d0.Status = "Archived" →
      (restoreDocument u now a1 a2 docId st).1.activityLog =
        st.activityLog ++ [logRow u now a1 "Updated Document" docId "Status updated",
          logRow u now a2 "Restored Document" docId "Document restored"] ∧
      (restoreDocument u now a1 a2 docId st).2.success = true) ∧
    (d0.Status = "Active" →
      (restoreDocument u now a1 a2 docId st).1.activityLog =
        st.activityLog ++ [logRow u now a2 "Restored Document" docId "Document restored"] ∧
      (restoreDocument u now a1 a2 docId st).2.success = true) := by
  refine ⟨?_, ?_, ?_, ?_⟩
  · intro hst
    have hch : changeList { Status := some "Archived" } d0 = ["Status updated"] := by
      simp [changeList, changedS, hst]
    obtain ⟨hlog, hres⟩ := updateDocument_found_log u now a1 docId
      { Status := some "Archived" } st d0 hs hh hfind
    rw [hch] at hlog
    simp only [reduceCtorEq, if_false] at hlog
    have hic : String.intercalate ", " ["Status updated"] = "Status updated" := by decide
    rw [hic] at hlog
    rw [archiveDocument]
    simp [hres, hlog]
  · intro hst
    have hch : changeList { Status := some "Archived" } d0 = [] := by
      simp [changeList, changedS, hst]
    obtain ⟨hlog, hres⟩ := updateDocument_found_log u now a1 docId
      { Status := some "Archived" } st d0 hs hh hfind
    rw [hch] at hlog
    simp only [if_true] at hlog
    rw [archiveDocument]
    simp [hres, hlog]
  · intro hst
    have hch : changeList { Status := some "Active" } d0 = ["Status updated"] := by
      simp [changeList, changedS, hst]
    obtain ⟨hlog, hres⟩ := updateDocument_found_log u now a1 docId
      { Status := some "Active" } st d0 hs hh hfind
    rw [hch] at hlog
    simp only [reduceCtorEq, if_false] at hlog
    have hic : String.intercalate ", " ["Status updated"] = "Status updated" := by decide
    rw [hic] at hlog
    rw [restoreDocument]
    simp [hres, hlog]
  · intro hst
    have hch : changeList { Status := some "Active" } d0 = [] := by
      simp [changeList, changedS, hst]
    obtain ⟨hlog, hres⟩ := updateDocument_found_log u now a1 docId
      { Status := some "Active" } st d0 hs hh hfind
    rw [hch] at hlog
    simp only [if_true] at hlog
    rw [restoreDocument]
    simp [hres, hlog]


/-- Witness for C10: archiving an Active document logs the two entries. -/
theorem C10_archive_restore_logging_witness :
    (archiveDocument ⟨true, "alice@example.com", "Alice", "A"⟩ 100 "ACT_1" "ACT_2" "DOC_1"
      ⟨[⟨"DOC_1", "Doc", "https://e.com/1", "", "Finance", "Website",
          "alice@example.com", "", 1, 1, "Active"⟩], [], [], [], [], [], []⟩).1.activityLog =
      [logRow ⟨true, "alice@example.com", "Alice", "A"⟩ 100 "ACT_1" "Updated Document"
          "DOC_1" "Status updated",
        logRow ⟨true, "alice@example.com", "Alice", "A"⟩ 100 "ACT_2" "Archived Document"
          "DOC_1" "Document archived"] :=
  ((C10_archive_restore_logging ⟨true, "alice@example.com", "Alice", "A"⟩ 100 "ACT_1"
    "ACT_2" "DOC_1"
    ⟨[⟨"DOC_1", "Doc", "https://e.com/1", "", "Finance", "Website",
        "alice@example.com", "", 1, 1, "Active"⟩], [], [], [], [], [], []⟩
    ⟨"DOC_1", "Doc", "https://e.com/1", "", "Finance", "Website",
        "alice@example.com", "", 1, 1, "Active"⟩ rfl (by decide) (by decide)).1 rfl).1

-- =====================================
-- C8: add then list example
-- =====================================

theorem addDocument_success
    (u : CurrentUser) (now : Nat) (docIdF actIdF : String) (input : AddInput) (st : Store)
    (hs : u.isSignedIn = true)
    (hname : truthyS input.DocumentName = true)
    (hturl : truthyS input.GoogleDriveURL = true)
    (hcat : truthyS input.Category = true)
    (hdup : isDuplicateURL (input.GoogleDriveURL.getD "") st.documents = false) :
    addDocument u now docIdF actIdF input st =
      ({ st with
          documents := st.documents ++
            [⟨docIdF, input.DocumentName.getD "", input.GoogleDriveURL.getD "",
              input.Description.getD "", input.Category.getD "",
              detectFileType (input.GoogleDriveURL.getD ""), u.email, input.Tags.getD "",
              now, now, "Active"⟩],
          activityLog := st.activityLog ++
            [logRow u now actIdF "Created Document" docIdF
              ("Created \"" ++ input.DocumentName.getD "" ++ "\"")],
          categories := updateCategoryCount (input.Category.getD "") 1 st.categories,
          tags := if truthyS input.Tags then updateTagCounts input.Tags 1 st.tags
            else st.tags },
        { success := true, docId := some docIdF,
          message := some "Document added successfully" }) := by
  rw [addDocument]
  simp [hs, hname, hturl, hcat, hdup]

theorem getDocumentsList_filter_name (st' : Store) (docs : List Document) (nd : Document)
    (name : String) (hdocs : st'.documents = docs ++ [nd])
    (hnone : ∀ d ∈ docs, (d.DocumentName == name) = false)
    (hnd : (nd.DocumentName == name) = true) :
    (getDocumentsList {} st').filter (fun d => d.DocumentName == name) = [nd] := by
  rw [getDocumentsList, hdocs]
  have hlen : (((docs ++ [nd]).length == 0) = true) = False := by simp
  have hkey : truthyS (({} : DocFilters).sortBy) = false := rfl
  simp only [hlen, if_false, hkey, Bool.false_eq_true]
  have hpass : (docs ++ [nd]).filter (fun d => passesFilters d {}) = docs ++ [nd] :=
    List.filter_eq_self.mpr (fun a _ => rfl)
  rw [hpass]
  have hperm := (jsSort_perm (docLe "date_desc") (docs ++ [nd])).filter
    (fun d => d.DocumentName == name)
  have hfil : (docs ++ [nd]).filter (fun d => d.DocumentName == name) = [nd] := by
    rw [List.filter_append]
    rw [List.filter_eq_nil_iff.mpr (fun d hd => by simp [hnone d hd])]
    simp [hnd]
  rw [hfil] at hperm
  exact List.perm_singleton.mp hperm

/-- C8: for a signed-in user and a store with no document named
`Q1 Report` and none with the given URL, the add of
`{name: "Q1 Report", url: "https://docs.google.com/document/d/abc",
category: "Finance"}` succeeds, appends exactly one new document row, and
a subsequent unfiltered list contains exactly one document named
`Q1 Report` — the new row, with `fileType = "Google Doc"`,
`status = "Active"` and `dateAdded = lastModified =` the add time. -/
theorem C8_add_then_list
    (u : CurrentUser) (now : Nat) (docIdF actIdF : String) (st : Store)
    (hs : u.isSignedIn = true)
    (hnoname : ∀ d ∈ st.documents, d.DocumentName ≠ "Q1 Report")
    (hnourl : ∀ d ∈ st.documents,
      d.GoogleDriveURL ≠ "https://docs.google.com/document/d/abc") :
    (addDocument u now docIdF actIdF
        { DocumentName := some "Q1 Report",
          GoogleDriveURL := some "https://docs.google.com/document/d/abc",
          Category := some "Finance" } st).2.success = true ∧
    (addDocument u now docIdF actIdF
        { DocumentName := some "Q1 Report",
          GoogleDriveURL := some "https://docs.google.com/document/d/abc",
          Category := some "Finance" } st).1.documents =
      st.documents ++
        [⟨docIdF, "Q1 Report", "https://docs.google.com/document/d/abc", "", "Finance",
          "Google Doc", u.email, "", now, now, "Active"⟩] ∧
    (getDocumentsList {}
        (addDocument u now docIdF actIdF
          { DocumentName := some "Q1 Report",
            GoogleDriveURL := some "https://docs.google.com/document/d/abc",
            Category := some "Finance" } st).1).filter
        (fun d => d.DocumentName == "Q1 Report") =
      [⟨docIdF, "Q1 Report", "https://docs.google.com/document/d/abc", "", "Finance",
        "Google Doc", u.email, "", now, now, "Active"⟩] := by
  have hdup : isDuplicateURL "https://docs.google.com/document/d/abc" st.documents
      = false := by
    rw [isDuplicateURL, Bool.eq_false_iff]
    intro h
    rw [List.any_eq_true] at h
    obtain ⟨d, hd, he⟩ := h
    exact hnourl d hd (by simpa using he)
  have hft : detectFileType "https://docs.google.com/document/d/abc" = "Google Doc" := by
    decide
  have hadd : addDocument u now docIdF actIdF
      { DocumentName := some "Q1 Report",
        GoogleDriveURL := some "https://docs.google.com/document/d/abc",
        Category := some "Finance" } st =
      ({ st with
          documents := st.documents ++
            [⟨docIdF, "Q1 Report", "https://docs.google.com/document/d/abc", "", "Finance",
              "Google Doc", u.email, "", now, now, "Active"⟩],
          activityLog := st.activityLog ++
            [logRow u now actIdF "Created Document" docIdF "Created \"Q1 Report\""],
          categories := updateCategoryCount "Finance" 1 st.categories,
          tags := st.tags },
        { success := true, docId := some docIdF,
          message := some "Document added successfully" }) := by
    rw [addDocument_success u now docIdF actIdF
      { DocumentName := some "Q1 Report",
        GoogleDriveURL := some "https://docs.google.com/document/d/abc",
        Category := some "Finance" } st hs (by decide) (by decide) (by decide) hdup]
    rfl
  refine ⟨?_, ?_, ?_⟩
  · rw [hadd]
  · rw [hadd]
  · refine getDocumentsList_filter_name _ st.documents
      ⟨docIdF, "Q1 Report", "https://docs.google.com/document/d/abc", "", "Finance",
        "Google Doc", u.email, "", now, now, "Active"⟩ "Q1 Report" ?_ ?_ rfl
    · rw [hadd]
    · intro d hd
      simp [hnoname d hd]


/-- Witness for C8 on the empty store. -/
theorem C8_add_then_list_witness :
    (getDocumentsList {}
        (addDocument ⟨true, "alice@example.com", "Alice", "A"⟩ 50 "DOC_1" "ACT_1"
          { DocumentName := some "Q1 Report",
            GoogleDriveURL := some "https://docs.google.com/document/d/abc",
            Category := some "Finance" }
          ⟨[], [], [], [], [], [], []⟩).1).filter
        (fun d => d.DocumentName == "Q1 Report") =
      [⟨"DOC_1", "Q1 Report", "https://docs.google.com/document/d/abc", "", "Finance",
        "Google Doc", "alice@example.com", "", 50, 50, "Active"⟩] :=
  (C8_add_then_list ⟨true, "alice@example.com", "Alice", "A"⟩ 50 "DOC_1" "ACT_1"
    ⟨[], [], [], [], [], [], []⟩ rfl (by decide) (by decide)).2.2

-- =====================================
-- C2: category counter invariant
-- =====================================

theorem updateCategoryCount_names (name : String) (dl : Int) (cats : List CategoryRow) :
    (updateCategoryCount name dl cats).map CategoryRow.CategoryName =
      cats.map CategoryRow.CategoryName := by
  induction cats with
  | nil => rfl
  | cons c rest ih =>
    rw [updateCategoryCount]
    split
    · rfl
    · split
      · rfl
      · simp only [List.map_cons, ih]

theorem map_self_of_eq {f : α → α} : ∀ {l : List α}, (∀ x ∈ l, f x = x) → l.map f = l := by
  intro l h
  induction l with
  | nil => rfl
  | cons a t ih =>
    rw [List.map_cons, h a (List.mem_cons_self a t),
      ih (fun x hx => h x (List.mem_cons_of_mem a hx))]

theorem updateCategoryCount_eq_map (name : String) (dl : Int) (cats : List CategoryRow)
    (hnd : (cats.map CategoryRow.CategoryName).Nodup)
    (hhdr : ∀ c ∈ cats, c.CategoryName ≠ "CategoryName") :
    updateCategoryCount name dl cats =
      cats.map (fun c => if c.CategoryName = name then
        { c with DocumentCount := max 0 (c.DocumentCount + dl) } else c) := by
  induction cats with
  | nil => rfl
  | cons c rest ih =>
    rw [updateCategoryCount]
    split
    · rename_i hn
      rw [beq_iff_eq] at hn
      subst hn
      refine (map_self_of_eq ?_).symm
      intro x hx
      rw [if_neg (hhdr x hx)]
    · split
      · rename_i hc
        rw [beq_iff_eq] at hc
        simp only [List.map_cons, if_pos hc]
        rw [List.map_cons, List.nodup_cons] at hnd
        have hrest : ∀ x ∈ rest, (if x.CategoryName = name then
            { x with DocumentCount := max 0 (x.DocumentCount + dl) } else x) = x := by
          intro x hx
          refine if_neg ?_
          intro he
          apply hnd.1
          have hmem : x.CategoryName ∈ rest.map CategoryRow.CategoryName :=
            List.mem_map_of_mem CategoryRow.CategoryName hx
          rwa [he, ← hc] at hmem
        rw [map_self_of_eq hrest]
      · rename_i hc
        have hc' : c.CategoryName ≠ name := by simpa using hc
        rw [List.map_cons, if_neg hc']
        rw [List.map_cons, List.nodup_cons] at hnd
        rw [ih hnd.2 (fun x hx => hhdr x (List.mem_cons_of_mem c hx))]

theorem countCat_cons (n : String) (d : Document) (l : List Document) :
    countCat n (d :: l) = (if d.Category = n then 1 else 0) + countCat n l := by
  rw [countCat, countCat, List.filter_cons]
  by_cases h : d.Category = n
  · simp only [h]
    simp
    omega
  · simp [h]

theorem countCat_append_one (n : String) (l : List Document) (d : Document) :
    countCat n (l ++ [d]) = countCat n l + (if d.Category = n then 1 else 0) := by
  rw [countCat, countCat, List.filter_append]
  by_cases h : d.Category = n
  · simp [h]
  · simp [h]

theorem countCat_pos {d0 : Document} {docs : List Document} (h : d0 ∈ docs) :
    1 ≤ countCat d0.Category docs := by
  rw [countCat]
  have : d0 ∈ docs.filter (fun d => d.Category == d0.Category) :=
    List.mem_filter.mpr ⟨h, by simp⟩
  calc 1 ≤ 1 := le_refl 1
  _ ≤ (docs.filter (fun d => d.Category == d0.Category)).length :=
    List.length_pos.mpr (List.ne_nil_of_mem this)

theorem writeFirstDoc_countCat (docId : String) (dnew : Document) (docs : List Document)
    (d0 : Document) (hfind : docs.find? (fun x => x.DocID == docId) = some d0)
    (n : String) :
    countCat n (writeFirstDoc docId dnew docs) + (if d0.Category = n then 1 else 0) =
      countCat n docs + (if dnew.Category = n then 1 else 0) := by
  induction docs with
  | nil => simp at hfind
  | cons d rest ih =>
    rw [writeFirstDoc]
    by_cases hc : (d.DocID == docId) = true
    · rw [if_pos hc]
      simp only [List.find?, hc, Option.some.injEq] at hfind
      subst hfind
      rw [countCat_cons, countCat_cons]
      omega
    · rw [if_neg hc]
      have hc' : (d.DocID == docId) = false := by simpa using hc
      simp only [List.find?, hc'] at hfind
      rw [countCat_cons, countCat_cons]
      have := ih hfind
      omega

theorem eraseFirstDoc_countCat (docId : String) (docs : List Document)
    (d0 : Document) (hfind : docs.find? (fun x => x.DocID == docId) = some d0)
    (n : String) :
    countCat n (eraseFirstDoc docId docs) + (if d0.Category = n then 1 else 0) =
      countCat n docs := by
  induction docs with
  | nil => simp at hfind
  | cons d rest ih =>
    rw [eraseFirstDoc]
    by_cases hc : (d.DocID == docId) = true
    · rw [if_pos hc]
      simp only [List.find?, hc, Option.some.injEq] at hfind
      subst hfind
      rw [countCat_cons]
      omega
    · rw [if_neg hc]
      have hc' : (d.DocID == docId) = false := by simpa using hc
      simp only [List.find?, hc'] at hfind
      rw [countCat_cons, countCat_cons]
      have := ih hfind
      omega


theorem updateCategoryCount_hhdr {cats : List CategoryRow} {name : String} {dl : Int}
    (hh : ∀ c ∈ cats, c.CategoryName ≠ "CategoryName") :
    ∀ c ∈ updateCategoryCount name dl cats, c.CategoryName ≠ "CategoryName" := by
  intro c hc
  have hm : c.CategoryName ∈ (updateCategoryCount name dl cats).map CategoryRow.CategoryName :=
    List.mem_map_of_mem CategoryRow.CategoryName hc
  rw [updateCategoryCount_names] at hm
  rcases List.mem_map.mp hm with ⟨c0, hc0, he⟩
  rw [← he]
  exact hh c0 hc0

theorem updateCategoryCount_count (name : String) (dl : Int) (cats : List CategoryRow)
    (f : String → Int)
    (hnd : (cats.map CategoryRow.CategoryName).Nodup)
    (hhdr : ∀ c ∈ cats, c.CategoryName ≠ "CategoryName")
    (hf : ∀ c ∈ cats, c.DocumentCount = f c.CategoryName) :
    ∀ c' ∈ updateCategoryCount name dl cats,
      (c'.CategoryName = name → c'.DocumentCount = max 0 (f name + dl)) ∧
      (c'.CategoryName ≠ name → c'.DocumentCount = f c'.CategoryName) := by
  induction cats with
  | nil => intro c' hc'; simp [updateCategoryCount] at hc'
  | cons c rest ih =>
    rw [updateCategoryCount]
    split
    · rename_i hn
      rw [beq_iff_eq] at hn
      intro c' hc'
      constructor
      · intro he
        exact absurd (he.trans hn) (hhdr c' hc')
      · intro _
        exact hf c' hc'
    · split
      · rename_i hc
        rw [beq_iff_eq] at hc
        intro c' hc'
        rcases List.mem_cons.mp hc' with rfl | hmem
        · constructor
          · intro _
            show max 0 (c.DocumentCount + dl) = max 0 (f name + dl)
            rw [hf c (List.mem_cons_self c rest), hc]
          · intro hne
            exact absurd hc hne
        · constructor
          · intro he
            exfalso
            rw [List.map_cons, List.nodup_cons] at hnd
            apply hnd.1
            have : c'.CategoryName ∈ rest.map CategoryRow.CategoryName :=
              List.mem_map_of_mem CategoryRow.CategoryName hmem
            rwa [he, ← hc] at this
          · intro _
            exact hf c' (List.mem_cons_of_mem c hmem)
      · rename_i hc
        have hc' : c.CategoryName ≠ name := by simpa using hc
        intro x hx
        rcases List.mem_cons.mp hx with rfl | hmem
        · exact ⟨fun he => absurd he hc', fun _ => hf x (List.mem_cons_self x rest)⟩
        · rw [List.map_cons, List.nodup_cons] at hnd
          exact ih hnd.2 (fun y hy => hhdr y (List.mem_cons_of_mem c hy))
            (fun y hy => hf y (List.mem_cons_of_mem c hy)) x hmem


theorem catok_after_add (st : Store) (nd : Document) (cat : String)
    (log' : List ActivityRow) (tags' : List TagRow)
    (hcat : nd.Category = cat) (h : CatOk st) :
    CatOk { st with
      documents := st.documents ++ [nd],
      activityLog := log',
      categories := updateCategoryCount cat 1 st.categories,
      tags := tags' } := by
  obtain ⟨hnd, hhdr, hcnt⟩ := h
  refine ⟨?_, ?_, ?_⟩
  · show ((updateCategoryCount cat 1 st.categories).map CategoryRow.CategoryName).Nodup
    rw [updateCategoryCount_names]
    exact hnd
  · exact updateCategoryCount_hhdr hhdr
  · show ∀ c ∈ updateCategoryCount cat 1 st.categories,
      c.DocumentCount = (countCat c.CategoryName (st.documents ++ [nd]) : Int)
    intro c' hc'
    have h := updateCategoryCount_count cat 1 st.categories
      (fun n => (countCat n st.documents : Int)) hnd hhdr hcnt c' hc'
    by_cases hn : c'.CategoryName = cat
    · rw [h.1 hn, countCat_append_one, if_pos (hcat.trans hn.symm), hn]
      push_cast
      omega
    · rw [h.2 hn, countCat_append_one,
        if_neg (fun he => hn (hcat.symm.trans he).symm)]
      push_cast
      omega

theorem catok_upd_noguard (st : Store) (d0 dnew : Document) (docId : String)
    (log' : List ActivityRow) (tags' : List TagRow)
    (hfind : st.documents.find? (fun x => x.DocID == docId) = some d0)
    (hcat : dnew.Category = d0.Category) (h : CatOk st) :
    CatOk { st with
      documents := writeFirstDoc docId dnew st.documents,
      activityLog := log',
      tags := tags' } := by
  obtain ⟨hnd, hhdr, hcnt⟩ := h
  refine ⟨hnd, hhdr, ?_⟩
  intro c hc
  have hcc := writeFirstDoc_countCat docId dnew st.documents d0 hfind c.CategoryName
  rw [hcat] at hcc
  show c.DocumentCount = (countCat c.CategoryName (writeFirstDoc docId dnew st.documents) : Int)
  have heq : countCat c.CategoryName (writeFirstDoc docId dnew st.documents) =
      countCat c.CategoryName st.documents := by omega
  rw [heq]
  exact hcnt c hc

theorem catok_upd_guard (st : Store) (d0 dnew : Document) (docId c : String)
    (log' : List ActivityRow) (tags' : List TagRow)
    (hfind : st.documents.find? (fun x => x.DocID == docId) = some d0)
    (hdnew : dnew.Category = c) (hc0 : c ≠ d0.Category) (h : CatOk st) :
    CatOk { st with
      documents := writeFirstDoc docId dnew st.documents,
      categories := updateCategoryCount c 1 (updateCategoryCount d0.Category (-1) st.categories),
      activityLog := log',
      tags := tags' } := by
  obtain ⟨hnd, hhdr, hcnt⟩ := h
  have hmem : d0 ∈ st.documents := List.mem_of_find?_eq_some hfind
  have hnd1 : ((updateCategoryCount d0.Category (-1) st.categories).map
      CategoryRow.CategoryName).Nodup := by
    rw [updateCategoryCount_names]
    exact hnd
  have hhdr1 : ∀ x ∈ updateCategoryCount d0.Category (-1) st.categories,
      x.CategoryName ≠ "CategoryName" := updateCategoryCount_hhdr hhdr
  have step1 : ∀ x ∈ updateCategoryCount d0.Category (-1) st.categories,
      x.DocumentCount = (fun n => if n = d0.Category then
        max 0 ((countCat n st.documents : Int) + (-1))
        else (countCat n st.documents : Int)) x.CategoryName := by
    intro x hx
    have hh := updateCategoryCount_count d0.Category (-1) st.categories
      (fun n => (countCat n st.documents : Int)) hnd hhdr hcnt x hx
    by_cases hn : x.CategoryName = d0.Category
    · rw [hh.1 hn, hn]
      simp
    · rw [hh.2 hn]
      simp [hn]
  have step2 := updateCategoryCount_count c 1
    (updateCategoryCount d0.Category (-1) st.categories)
    (fun n => if n = d0.Category then max 0 ((countCat n st.documents : Int) + (-1))
      else (countCat n st.documents : Int)) hnd1 hhdr1 step1
  refine ⟨?_, ?_, ?_⟩
  · show ((updateCategoryCount c 1 (updateCategoryCount d0.Category (-1)
      st.categories)).map CategoryRow.CategoryName).Nodup
    rw [updateCategoryCount_names, updateCategoryCount_names]
    exact hnd
  · exact updateCategoryCount_hhdr hhdr1
  · show ∀ x ∈ updateCategoryCount c 1 (updateCategoryCount d0.Category (-1) st.categories),
      x.DocumentCount = (countCat x.CategoryName (writeFirstDoc docId dnew st.documents) : Int)
    intro x hx
    have hh := step2 x hx
    have hcc := writeFirstDoc_countCat docId dnew st.documents d0 hfind x.CategoryName
    rw [hdnew] at hcc
    by_cases h2 : x.CategoryName = c
    · have h1 : ¬ d0.Category = x.CategoryName := fun he => hc0 (h2 ▸ he.symm)
      rw [h2] at hcc
      rw [if_pos rfl, if_neg (fun he : d0.Category = c => hc0 he.symm)] at hcc
      rw [hh.1 h2]
      show max 0 ((if c = d0.Category then
          max 0 ((countCat c st.documents : Int) + (-1))
          else (countCat c st.documents : Int)) + 1) =
        (countCat x.CategoryName (writeFirstDoc docId dnew st.documents) : Int)
      rw [if_neg hc0, h2]
      omega
    · by_cases h1 : x.CategoryName = d0.Category
      · have hpos : 1 ≤ countCat d0.Category st.documents := countCat_pos hmem
        rw [h1] at hcc
        rw [if_pos rfl, if_neg (fun he : c = d0.Category => hc0 he)] at hcc
        rw [hh.2 h2]
        show (if x.CategoryName = d0.Category then
            max 0 ((countCat x.CategoryName st.documents : Int) + (-1))
            else (countCat x.CategoryName st.documents : Int)) =
          (countCat x.CategoryName (writeFirstDoc docId dnew st.documents) : Int)
        rw [if_pos h1, h1]
        omega
      · rw [if_neg (fun he : d0.Category = x.CategoryName => h1 he.symm),
          if_neg (fun he : c = x.CategoryName => h2 he.symm)] at hcc
        rw [hh.2 h2]
        show (if x.CategoryName = d0.Category then
            max 0 ((countCat x.CategoryName st.documents : Int) + (-1))
            else (countCat x.CategoryName st.documents : Int)) =
          (countCat x.CategoryName (writeFirstDoc docId dnew st.documents) : Int)
        rw [if_neg h1]
        omega

theorem catok_after_del (st : Store) (d0 : Document) (docId : String)
    (log' : List ActivityRow) (tags' : List TagRow) (favs' : List FavoriteRow)
    (hfind : st.documents.find? (fun x => x.DocID == docId) = some d0) (h : CatOk st) :
    CatOk { st with
      documents := eraseFirstDoc docId st.documents,
      categories := updateCategoryCount d0.Category (-1) st.categories,
      favorites := favs',
      activityLog := log',
      tags := tags' } := by
  obtain ⟨hnd, hhdr, hcnt⟩ := h
  have hmem : d0 ∈ st.documents := List.mem_of_find?_eq_some hfind
  refine ⟨?_, ?_, ?_⟩
  · show ((updateCategoryCount d0.Category (-1) st.categories).map
      CategoryRow.CategoryName).Nodup
    rw [updateCategoryCount_names]
    exact hnd
  · exact updateCategoryCount_hhdr hhdr
  · show ∀ x ∈ updateCategoryCount d0.Category (-1) st.categories,
      x.DocumentCount = (countCat x.CategoryName (eraseFirstDoc docId st.documents) : Int)
    intro x hx
    have hh := updateCategoryCount_count d0.Category (-1) st.categories
      (fun n => (countCat n st.documents : Int)) hnd hhdr hcnt x hx
    have hcc := eraseFirstDoc_countCat docId st.documents d0 hfind x.CategoryName
    by_cases h1 : x.CategoryName = d0.Category
    · have hpos : 1 ≤ countCat d0.Category st.documents := countCat_pos hmem
      rw [h1] at hcc
      rw [if_pos rfl] at hcc
      rw [hh.1 h1]
      show max 0 ((countCat d0.Category st.documents : Int) + (-1)) =
        (countCat x.CategoryName (eraseFirstDoc docId st.documents) : Int)
      rw [h1]
      omega
    · rw [hh.2 h1]
      show (countCat x.CategoryName st.documents : Int) =
        (countCat x.CategoryName (eraseFirstDoc docId st.documents) : Int)
      rw [if_neg (fun he : d0.Category = x.CategoryName => h1 he.symm)] at hcc
      omega


theorem catok_addDocument (u : CurrentUser) (now : Nat) (dF aF : String) (input : AddInput)
    (st : Store) (h : CatOk st) : CatOk (addDocument u now dF aF input st).1 := by
  rw [addDocument]
  split
  · exact h
  · split
    · exact h
    · split
      · exact h
      · exact catok_after_add st _ (input.Category.getD "") _ _ rfl h

theorem catok_updateDocument (u : CurrentUser) (now : Nat) (aF docId : String)
    (upds : DocUpdates) (st : Store)
    (hid : docId ≠ "DocID") (hupd : upds.Category ≠ some "") (h : CatOk st) :
    CatOk (updateDocument u now aF docId upds st).1 := by
  rw [updateDocument]
  split
  · exact h
  · split
    · rename_i hc
      exact absurd (by simpa using hc) hid
    · split
      · exact h
      · rename_i d0 hfind
        have hst' : CatOk (updSideEffects upds d0.Category d0.Tags
            { st with
              documents := (writeFirstDoc docId (applyUpd upds now d0) st.documents) }) := by
          rw [updSideEffects]
          cases hguard : catGuard upds d0.Category with
          | false =>
            simp only [hguard, Bool.false_eq_true, if_false]
            have hcat : (applyUpd upds now d0).Category = d0.Category := by
              show updVal d0.Category upds.Category = d0.Category
              cases hcu : upds.Category with
              | none => rfl
              | some cval =>
                rw [catGuard, hcu] at hguard
                have hne : cval ≠ "" := by
                  intro he
                  exact hupd (hcu.trans (by rw [he]))
                simp only [Bool.and_eq_true, Bool.not_eq_true', beq_eq_false_iff_ne,
                  ne_eq] at hguard
                rcases Bool.and_eq_false_iff.mp hguard with h1 | h2
                · exact absurd (by simpa using h1) hne
                · show cval = d0.Category
                  simpa using h2
            exact catok_upd_noguard st d0 (applyUpd upds now d0) docId _ _ hfind hcat h
          | true =>
            simp only [hguard, if_true]
            rw [catGuard] at hguard
            cases hcu : upds.Category with
            | none => rw [hcu] at hguard; exact absurd hguard (by simp)
            | some cval =>
              rw [hcu] at hguard
              simp only [Bool.and_eq_true, Bool.not_eq_true', beq_eq_false_iff_ne,
                ne_eq] at hguard
              show CatOk { st with
                documents := writeFirstDoc docId (applyUpd upds now d0) st.documents,
                categories := updateCategoryCount ((some cval).getD "") 1
                  (updateCategoryCount d0.Category (-1) st.categories),
                tags := if tagGuard upds d0.Tags then
                  updateTagCounts upds.Tags 1 (updateTagCounts (some d0.Tags) (-1) st.tags)
                  else st.tags }
              exact catok_upd_guard st d0 (applyUpd upds now d0) docId cval _ _ hfind
                (by show updVal d0.Category upds.Category = cval; rw [hcu]; rfl)
                hguard.2 h
        dsimp only
        split
        · exact hst'
        · exact hst'

theorem catok_deleteDocument (u : CurrentUser) (now : Nat) (aF docId : String)
    (st : Store) (hid : docId ≠ "DocID") (h : CatOk st) :
    CatOk (deleteDocument u now aF docId st).1 := by
  rw [deleteDocument]
  split
  · exact h
  · split
    · rename_i hc
      exact absurd (by simpa using hc) hid
    · split
      · exact h
      · rename_i d0 hfind
        exact catok_after_del st d0 docId _ _ _ hfind h

theorem catok_applyOp (st : Store) (op : Op) (hwf : WfOp op) (h : CatOk st) :
    CatOk (applyOp st op) := by
  cases op with
  | add u now dF aF input => exact catok_addDocument u now dF aF input st h
  | upd u now aF docId upds =>
    exact catok_updateDocument u now aF docId upds st hwf.1 hwf.2 h
  | del u now aF docId => exact catok_deleteDocument u now aF docId st hwf h

theorem catok_applyOps (ops : List Op) (st : Store)
    (hwf : ∀ op ∈ ops, WfOp op) (h : CatOk st) : CatOk (applyOps st ops) := by
  induction ops generalizing st with
  | nil => exact h
  | cons op rest ih =>
    exact ih (applyOp st op) (fun x hx => hwf x (List.mem_cons_of_mem op hx))
      (catok_applyOp st op (hwf op (List.mem_cons_self op rest)) h)


/-- C2 (amended): after any sequence of add/update/delete operations that
is well formed — document ids are not the header literal and no update
sets `Category` to the empty string — starting from a store whose category
sheet has pairwise-distinct, non-header names and correct counters, every
category row's `documentCount` equals the number of (non-deleted) document
rows whose `Category` equals its name, and is never negative. -/
theorem C2_category_counter_invariant (ops : List Op) (st : Store)
    (hwf : ∀ op ∈ ops, WfOp op) (h : CatOk st) :
    ∀ c ∈ (applyOps st ops).categories,
      c.DocumentCount = (countCat c.CategoryName (applyOps st ops).documents : Int) ∧
      0 ≤ c.DocumentCount := by
  have hok := catok_applyOps ops st hwf h
  intro c hc
  refine ⟨hok.2.2 c hc, ?_⟩
  rw [hok.2.2 c hc]
  exact Int.natCast_nonneg _

/-- C2 as stated fails on the code: starting from a store satisfying the
invariant, one `updateDocument` setting `Category` to the empty string
writes the cell (line 274 guards only against `undefined`) but skips both
counter adjustments (line 282 requires a truthy new category), leaving
`Finance.documentCount = 1` while no document references Finance. -/
theorem C2_category_counter_counterexample :
    (let u : CurrentUser := ⟨true, "alice@example.com", "Alice", "A"⟩
     let st : Store :=
      ⟨[⟨"DOC_1", "Doc", "https://e.com/1", "", "Finance", "Website",
          "alice@example.com", "", 1, 1, "Active"⟩],
        [⟨"CAT_1", "Finance", "alice@example.com", 0, true, 1⟩], [], [], [], [], []⟩
     let st' := applyOps st [Op.upd u 100 "ACT_1" "DOC_1" { Category := some "" }]
     (∀ c ∈ st.categories,
        c.DocumentCount = (countCat c.CategoryName st.documents : Int)) ∧
     ¬ (∀ c ∈ st'.categories,
        c.DocumentCount = (countCat c.CategoryName st'.documents : Int))) := by
  decide

/-- Witness for C2: one add into a zero-count category yields a counter of
1 matching the single referencing document. -/
theorem C2_category_counter_invariant_witness :
    (⟨"CAT_1", "Finance", "alice@example.com", 0, true, (1 : Int)⟩ : CategoryRow).DocumentCount =
      (countCat "Finance"
        (applyOps
          ⟨[], [⟨"CAT_1", "Finance", "alice@example.com", 0, true, 0⟩], [], [], [], [], []⟩
          [Op.add ⟨true, "alice@example.com", "Alice", "A"⟩ 50 "DOC_1" "ACT_1"
            { DocumentName := some "Doc", GoogleDriveURL := some "https://e.com/1",
              Category := some "Finance" }]).documents : Int) ∧
    (0 : Int) ≤
      (⟨"CAT_1", "Finance", "alice@example.com", 0, true, (1 : Int)⟩ : CategoryRow).DocumentCount :=
  C2_category_counter_invariant
    [Op.add ⟨true, "alice@example.com", "Alice", "A"⟩ 50 "DOC_1" "ACT_1"
      { DocumentName := some "Doc", GoogleDriveURL := some "https://e.com/1",
        Category := some "Finance" }]
    ⟨[], [⟨"CAT_1", "Finance", "alice@example.com", 0, true, 0⟩], [], [], [], [], []⟩
    (by intro op hop; rcases List.mem_singleton.mp hop with rfl; trivial)
    (by refine ⟨?_, ?_, ?_⟩ <;> decide)
    ⟨"CAT_1", "Finance", "alice@example.com", 0, true, 1⟩ (by decide)

end DocCenter
